import Mathlib

/-!
Verification development for the INSTA-DOWNLOADER-BOT repository
(`src/main.py` and `src/instagram_bot.py`).

The repository's core logic is embedded shallowly:

* the Instagram URL classifiers of both files (`extract_instagram_info`)
  are embedded as deterministic string matchers that mirror the regular
  expressions of the source; `re.search` semantics (leftmost match, with
  `re.IGNORECASE` in `main.py`) is modelled by trying every suffix of the
  input from the left, comparing ASCII-lowercased characters against the
  lowercase pattern literals in the `main.py` case.  For the four patterns
  of each file the greedy character-class runs (`[^/?#]+`, `[^/]+`, `.*`)
  are never given back by Python's backtracking engine (each following
  pattern item requires a character the class excludes, or the end
  anchor), so a deterministic maximal-munch matcher is an exact model.
* the rate limiter (`is_rate_limited`), session store and the message and
  button-callback handlers are embedded as pure functions; the Telegram
  transport and the `yt-dlp` fetcher are oracles, and handlers return the
  list of effects they perform together with the updated state.
-/

/-- ASCII lowercasing: the effect of `re.IGNORECASE` on the ASCII pattern
literals used in `main.py`. -/
def charLower : Char → Char
  | 'A' => 'a' | 'B' => 'b' | 'C' => 'c' | 'D' => 'd' | 'E' => 'e'
  | 'F' => 'f' | 'G' => 'g' | 'H' => 'h' | 'I' => 'i' | 'J' => 'j'
  | 'K' => 'k' | 'L' => 'l' | 'M' => 'm' | 'N' => 'n' | 'O' => 'o'
  | 'P' => 'p' | 'Q' => 'q' | 'R' => 'r' | 'S' => 's' | 'T' => 't'
  | 'U' => 'u' | 'V' => 'v' | 'W' => 'w' | 'X' => 'x' | 'Y' => 'y'
  | 'Z' => 'z'
  | c => c

/-- Characters matched by the class `[^/?#]` of the `main.py` patterns. -/
def segChar (c : Char) : Bool :=
  !(c = '/' || c = '?' || c = '#')

/-- Characters matched by the class `[^/]` of the `instagram_bot.py`
patterns. -/
def noSlashChar (c : Char) : Bool :=
  !(c = '/')

/-- Characters matched by `.` without `re.DOTALL`: anything but a
newline. -/
def dotChar (c : Char) : Bool :=
  !(c = '\n')

/-- Python's `$` without `re.MULTILINE`: matches at the end of the string
or just before one final newline. -/
def endAnchor (s : List Char) : Bool :=
  s = [] || s = ['\n']

/-- Case-insensitive literal: consumes characters whose lowercase image is
the (lowercase) pattern literal, returning the consumed original-case
characters and the rest. -/
def litIC : List Char → List Char → Option (List Char × List Char)
  | [], s => some ([], s)
  | _ :: _, [] => none
  | p :: ps, c :: cs =>
      if charLower c = p then
        (litIC ps cs).map (fun x => (c :: x.1, x.2))
      else none

/-- Case-sensitive literal (the `instagram_bot.py` patterns are compiled
without flags). -/
def litCS : List Char → List Char → Option (List Char × List Char)
  | [], s => some ([], s)
  | _ :: _, [] => none
  | p :: ps, c :: cs =>
      if c = p then
        (litCS ps cs).map (fun x => (c :: x.1, x.2))
      else none

/-- Regex `x?` for a single literal character, case-insensitively (greedy, which
is exact here: see the header comment). -/
def optCharIC (p : Char) : List Char → List Char × List Char
  | [] => ([], [])
  | c :: cs => if charLower c = p then ([c], cs) else ([], c :: cs)

/-- Regex `x?` for a single literal character, case-sensitively. -/
def optCharCS (p : Char) : List Char → List Char × List Char
  | [] => ([], [])
  | c :: cs => if c = p then ([c], cs) else ([], c :: cs)

/-- Regex `(?:www\.)?`, case-insensitively (greedy; exact here because `www.`
and `instagram.com/` cannot both start at the same position). -/
def optLitIC (l : List Char) (s : List Char) : List Char × List Char :=
  match litIC l s with
  | some r => r
  | none => ([], s)

/-- Regex `([^/?#]+)`: greedy non-empty run of segment characters. -/
def munchSeg (s : List Char) : Option (List Char × List Char) :=
  let t := s.takeWhile segChar
  if t.isEmpty then none else some (t, s.drop t.length)

/-- Regex `([^/]+)`: greedy non-empty run of non-slash characters. -/
def munchNoSlash (s : List Char) : Option (List Char × List Char) :=
  let t := s.takeWhile noSlashChar
  if t.isEmpty then none else some (t, s.drop t.length)

/-- Regex `(?:\?.*)?`: optionally a question mark followed by the rest of the
line (greedy; exact here, see the header comment). -/
def optQS : List Char → List Char × List Char
  | [] => ([], [])
  | c :: cs =>
      if c = '?' then
        (c :: cs.takeWhile dotChar, cs.drop (cs.takeWhile dotChar).length)
      else ([], c :: cs)

/-- The common prefix `https?://(?:www\.)?instagram\.com/` of the four
`main.py` patterns, matched with `re.IGNORECASE`. -/
def schemeHostIC (s : List Char) : Option (List Char × List Char) :=
  match litIC ("http".toList) s with
  | none => none
  | some (a1, r1) =>
    let (a2, r2) := optCharIC 's' r1
    match litIC ("://".toList) r2 with
    | none => none
    | some (a3, r3) =>
      let (a4, r4) := optLitIC ("www.".toList) r3
      match litIC ("instagram.com/".toList) r4 with
      | none => none
      | some (a5, r5) => some (a1 ++ a2 ++ a3 ++ a4 ++ a5, r5)

/-- The `main.py` pattern `'profile'`:
`https?://(?:www\.)?instagram\.com/([^/?#]+)/?(?:\?.*)?$`.
Returns `(group 0, group 1)`. -/
def profileAtMain (s : List Char) : Option (List Char × List Char) :=
  match schemeHostIC s with
  | none => none
  | some (a, r) =>
    match munchSeg r with
    | none => none
    | some (g, r1) =>
      let (b, r2) := optCharIC '/' r1
      let (c, r3) := optQS r2
      if endAnchor r3 then some (a ++ g ++ b ++ c, g) else none

/-- The `main.py` pattern `'post'`:
`https?://(?:www\.)?instagram\.com/p/([^/?#]+)/?(?:\?.*)?`. -/
def postAtMain (s : List Char) : Option (List Char × List Char) :=
  match schemeHostIC s with
  | none => none
  | some (a, r) =>
    match litIC ("p/".toList) r with
    | none => none
    | some (l, r0) =>
      match munchSeg r0 with
      | none => none
      | some (g, r1) =>
        let (b, r2) := optCharIC '/' r1
        let (c, r3) := optQS r2
        let _ := r3
        some (a ++ l ++ g ++ b ++ c, g)

/-- The `main.py` pattern `'reel'`:
`https?://(?:www\.)?instagram\.com/reel/([^/?#]+)/?(?:\?.*)?`. -/
def reelAtMain (s : List Char) : Option (List Char × List Char) :=
  match schemeHostIC s with
  | none => none
  | some (a, r) =>
    match litIC ("reel/".toList) r with
    | none => none
    | some (l, r0) =>
      match munchSeg r0 with
      | none => none
      | some (g, r1) =>
        let (b, r2) := optCharIC '/' r1
        let (c, r3) := optQS r2
        let _ := r3
        some (a ++ l ++ g ++ b ++ c, g)

/-- The `main.py` pattern `'story'`:
`https?://(?:www\.)?instagram\.com/stories/([^/?#]+)/([^/?#]+)/?(?:\?.*)?`.
`group 1` is the first captured segment. -/
def storyAtMain (s : List Char) : Option (List Char × List Char) :=
  match schemeHostIC s with
  | none => none
  | some (a, r) =>
    match litIC ("stories/".toList) r with
    | none => none
    | some (l, r0) =>
      match munchSeg r0 with
      | none => none
      | some (g1, r1) =>
        match litIC ("/".toList) r1 with
        | none => none
        | some (sl, r2) =>
          match munchSeg r2 with
          | none => none
          | some (g2, r3) =>
            let (b, r4) := optCharIC '/' r3
            let (c, r5) := optQS r4
            let _ := r5
            some (a ++ l ++ g1 ++ sl ++ g2 ++ b ++ c, g1)

/-- Model of `re.search`: try the pattern at every start position from the left,
including the empty suffix at the end, returning the first success. -/
def research (m : List Char → Option α) : List Char → Option α
  | [] => m []
  | c :: t =>
    match m (c :: t) with
    | some r => some r
    | none => research m t

/-- The content types distinguished by `main.py`. -/
inductive UrlType where
  | profile | post | reel | story
deriving DecidableEq, Repr

/-- Embedding of `main.py` `InstagramTelegramBot.extract_instagram_info`: iterate the
pattern dict in its insertion order — `profile`, `post`, `reel`, `story` —
and return `(match.group(0), url_type)` for the first pattern that
matches anywhere in the text, else `None`. -/
def mainExtractInstagramInfo (text : List Char) : Option (List Char × UrlType) :=
  match research profileAtMain text with
  | some (g0, _) => some (g0, UrlType.profile)
  | none =>
  match research postAtMain text with
  | some (g0, _) => some (g0, UrlType.post)
  | none =>
  match research reelAtMain text with
  | some (g0, _) => some (g0, UrlType.reel)
  | none =>
  match research storyAtMain text with
  | some (g0, _) => some (g0, UrlType.story)
  | none => none

/-- The `instagram_bot.py` pattern `'profile'`: `instagram\.com/([^/]+)/?$`. -/
def profileAtBot (s : List Char) : Option (List Char × List Char) :=
  match litCS ("instagram.com/".toList) s with
  | none => none
  | some (a, r) =>
    match munchNoSlash r with
    | none => none
    | some (g, r1) =>
      let (b, r2) := optCharCS '/' r1
      if endAnchor r2 then some (a ++ g ++ b, g) else none

/-- The `instagram_bot.py` pattern `'reel'`: `instagram\.com/reel/([^/]+)`. -/
def reelAtBot (s : List Char) : Option (List Char × List Char) :=
  match litCS ("instagram.com/reel/".toList) s with
  | none => none
  | some (a, r) =>
    match munchNoSlash r with
    | none => none
    | some (g, r1) =>
      let _ := r1
      some (a ++ g, g)

/-- The `instagram_bot.py` pattern `'post'`: `instagram\.com/p/([^/]+)`. -/
def postAtBot (s : List Char) : Option (List Char × List Char) :=
  match litCS ("instagram.com/p/".toList) s with
  | none => none
  | some (a, r) =>
    match munchNoSlash r with
    | none => none
    | some (g, r1) =>
      let _ := r1
      some (a ++ g, g)

/-- The `instagram_bot.py` pattern `'story'`:
`instagram\.com/stories/([^/]+)/([^/]+)`. -/
def storyAtBot (s : List Char) : Option (List Char × List Char) :=
  match litCS ("instagram.com/stories/".toList) s with
  | none => none
  | some (a, r) =>
    match munchNoSlash r with
    | none => none
    | some (g1, r1) =>
      match litCS ("/".toList) r1 with
      | none => none
      | some (sl, r2) =>
        match munchNoSlash r2 with
        | none => none
        | some (g2, r3) =>
          let _ := r3
          some (a ++ g1 ++ sl ++ g2, g1)

/-- The content types distinguished by `instagram_bot.py` (a non-match is
reported as `unknown`, not as `None`). -/
inductive BotType where
  | profile | post | reel | story | unknown
deriving DecidableEq, Repr

/-- Result of `instagram_bot.py` `extract_instagram_info`: the dict
`{'type': ..., 'id': match.group(1) or None, 'url': url}`. -/
structure BotInfo where
  type : BotType
  id : Option (List Char)
  url : List Char
deriving DecidableEq, Repr

/-- Embedding of `instagram_bot.py` `extract_instagram_info`: iterate the pattern dict
in its insertion order — `profile`, `reel`, `post`, `story` — returning
type and `group(1)` of the first match, else type `unknown`. -/
def botExtractInstagramInfo (url : List Char) : BotInfo :=
  match research profileAtBot url with
  | some (_, g) => ⟨BotType.profile, some g, url⟩
  | none =>
  match research reelAtBot url with
  | some (_, g) => ⟨BotType.reel, some g, url⟩
  | none =>
  match research postAtBot url with
  | some (_, g) => ⟨BotType.post, some g, url⟩
  | none =>
  match research storyAtBot url with
  | some (_, g) => ⟨BotType.story, some g, url⟩
  | none => ⟨BotType.unknown, none, url⟩

/-!  Rate limiter (`instagram_bot.py` lines 99–125).  Times are modelled
as integer seconds; `Config.MAX_REQUESTS_PER_HOUR = 30`, one hour =
3600 s.  The 5-minutely global sweep (`cleanup_old_requests`) removes,
with the same predicate, only entries every later call's own pruning
would also remove, so a single user's admit/deny answers are captured by
the per-user part of `is_rate_limited` alone. -/
/-- The pruning applied to a user's record on each `is_rate_limited`
call: keep `req_time for req_time in user_requests[user_id] if req_time >
hour_ago` with `hour_ago = now - timedelta(hours=1)`. -/
def pruneRecord (now : Int) (rec : List Int) : List Int :=
  rec.filter (fun t => now - 3600 < t)

/-- Embedding of `instagram_bot.py` `is_rate_limited(user_id)`, acting on the one
user's record: prune, then if the remaining count is at least 30 return
`True` (denied) with the record unchanged beyond pruning, else append
`now` and return `False` (admitted). -/
def is_rate_limited (now : Int) (rec : List Int) : Bool × List Int :=
  let pruned := pruneRecord now rec
  if 30 ≤ pruned.length then (true, pruned)
  else (false, pruned ++ [now])

/-!  Session store (`main.py` lines 48–89). -/
/-- A `main.py` user session: `{'url': ..., 'url_type': ..., 'timestamp': ...}`. -/
structure Session where
  url : List Char
  urlType : UrlType
  timestamp : Int
deriving DecidableEq, Repr

/-- The map `self.user_sessions`: a finite map from user id to session, modelled
as an association list with at most one binding per key. -/
def SessMap := List (Nat × Session)

instance : DecidableEq SessMap := by
  unfold SessMap
  infer_instance

/-- Dictionary lookup `self.user_sessions.get(user_id)`. -/
def sessLookup (m : SessMap) (uid : Nat) : Option Session :=
  match m with
  | [] => none
  | (k, v) :: t => if k = uid then some v else sessLookup t uid

/-- Embedding of `create_session`: `self.user_sessions[user_id] = {...}` (overwrites
any existing binding). -/
def create_session (m : SessMap) (uid : Nat) (url : List Char)
    (urlType : UrlType) (now : Int) : SessMap :=
  (uid, ⟨url, urlType, now⟩) :: (m.filter (fun kv => !(kv.1 = uid)))

/-- Embedding of `clear_session`: `self.user_sessions.pop(user_id, None)` (idempotent,
absent key is fine). -/
def clear_session (m : SessMap) (uid : Nat) : SessMap :=
  m.filter (fun kv => !(kv.1 = uid))

/-- Embedding of `main.py` `is_session_valid` (lines 71–77): `False` when the user has
no session, else `time.time() - session_time < self.session_timeout` with
`session_timeout = 300`. -/
def is_session_valid (m : SessMap) (now : Int) (uid : Nat) : Bool :=
  match sessLookup m uid with
  | none => false
  | some s => decide (now - s.timestamp < 300)

/-!  Caption construction (`main.py` `download_with_ytdlp`,
lines 140–156). -/
/-- The `caption_parts` list built from the fetcher metadata: uploader if
non-empty, title if non-empty and different from the uploader,
description (truncated to 200 characters plus `"..."` when longer than
200) if non-empty and different from the title. -/
def captionParts (uploader title description : List Char) : List (List Char) :=
  (if uploader ≠ [] then ["👤 **".toList ++ uploader ++ "**".toList] else []) ++
  (if title ≠ [] ∧ title ≠ uploader then ["📝 ".toList ++ title] else []) ++
  (if description ≠ [] ∧ description ≠ title then
      ["💬 ".toList ++
        (if 200 < description.length then description.take 200 ++ "...".toList
         else description)]
    else [])

/-- The line `caption = "\n\n".join(caption_parts) if caption_parts else None`. -/
def buildCaption (uploader title description : List Char) : Option (List Char) :=
  let parts := captionParts uploader title description
  if parts = [] then none
  else some (List.intercalate ("\n\n".toList) parts)

/-!  Handlers.  The handlers of both files are embedded as pure functions
from their state plus oracles for the two external collaborators (the
`yt-dlp` fetcher and the Telegram transport) to the list of effects they
perform and the updated state.  User-facing message texts are abstracted
to the `Msg` tag of the call site. -/
/-- Tags for the user-facing messages sent or edited by the handlers. -/
inductive Msg where
  | sessionExpired | notForYou | cancelled | downloading | downloadFailed
  | errorGeneric | rateLimited | invalidUrl | processing | unsupported
  | mediaChoice | profileFetching | profileFailed
deriving DecidableEq, Repr

/-- Observable effects of a handler run, in order of execution. -/
inductive Eff where
  /-- `await query.answer()` -/
  | answerCb
  /-- `await query.answer(..., show_alert=True)` -/
  | alert (m : Msg)
  /-- editing the processing/inline message -/
  | edit (m : Msg)
  /-- `update.message.reply_text(...)` -/
  | reply (m : Msg)
  /-- `main.py` `reply_audio`/`reply_video` with `caption=caption_text[:1024]` -/
  | replyMedia (audioOnly : Bool) (path : List Char) (caption : List Char)
  /-- `instagram_bot.py` `reply_audio`/`reply_video` (caption not truncated there) -/
  | replyMediaBot (audioOnly : Bool) (path : List Char)
  /-- `reply_photo` -/
  | replyPhoto (path : List Char)
  /-- `query.delete_message()` / `processing_msg.delete()` -/
  | deleteMsg
  /-- invoking the content fetcher (`download_with_ytdlp` or the profile
  picture download) -/
  | fetch (audioOnly : Bool)
  /-- `safe_delete_file(filepath)` -/
  | deleteFile (p : List Char)
  /-- `bot.clear_session(user_id)` -/
  | clearSess (u : Nat)
  /-- `bot.create_session(user_id, url, url_type)` -/
  | createSess (u : Nat)
  /-- `context.user_data[url_key] = url` (`instagram_bot.py`) -/
  | storeKey (k : List Char)
  /-- `del context.user_data[url_key]` (`instagram_bot.py`) -/
  | delKey (k : List Char)
deriving DecidableEq, Repr

/-- Oracle for one awaited `main.py` `download_with_ytdlp` call: either it
returns `(filepath, status, caption)` — it catches all its own
exceptions, and the caption is built from the fetched metadata by the
code embedded as `buildCaption` — or an unexpected exception escapes the
awaited call path before a filepath was assigned. -/
inductive FetchOutcome where
  | ret (filepath : Option (List Char)) (uploader title description : List Char)
  | raise
deriving DecidableEq, Repr

/-- Oracle for the delivery step (`open`/`reply_*`/`delete_message`):
either it completes or it raises into the handler's `except` clause. -/
inductive DeliverOutcome where
  | ok
  | raise
deriving DecidableEq, Repr

/-- The three button actions `main.py` produces in its callback data
(`f"video_{user_id}"`, `f"audio_{user_id}"`, `f"cancel_{user_id}"`). -/
inductive CbAction where
  | video | audio | cancel
deriving DecidableEq, Repr

/-- The `main.py` caption for a delivered file:
`caption_text = f"..Downloaded Successfully!.."` plus `"\n\n" + caption`
when the fetcher supplied one. -/
def mainCaptionText (audioOnly : Bool) (cap : Option (List Char)) : List Char :=
  (if audioOnly then "🎵✅ **Audio Downloaded Successfully!**".toList
   else "🎥✅ **Video Downloaded Successfully!**".toList) ++
  (match cap with
   | some c => "\n\n".toList ++ c
   | none => [])

/-- Embedding of `main.py` `handle_button_callback` (lines 348–451).  Arguments:
session store, acting user id (`update.effective_user.id`), the parsed
callback action and embedded user id (`query.data.split('_', 1)`), the
current time, and the fetch/file-existence/delivery oracles.  Returns the
effect trace and the resulting session store. -/
def handle_button_callback (m : SessMap) (uid : Nat) (act : CbAction)
    (owner : Nat) (now : Int) (fo : FetchOutcome) (fexists : Bool)
    (dlv : DeliverOutcome) : List Eff × SessMap :=
  let e0 : List Eff := [Eff.answerCb]
  if is_session_valid m now uid = false then
    (e0 ++ [Eff.edit Msg.sessionExpired], m)
  else if uid ≠ owner then
    (e0 ++ [Eff.alert Msg.notForYou], m)
  else
    match sessLookup m uid with
    | none => (e0, m)  -- unreachable: a valid session exists
    | some _s =>
      match act with
      | CbAction.cancel =>
          (e0 ++ [Eff.clearSess uid, Eff.edit Msg.cancelled], clear_session m uid)
      | _ =>
        let audioOnly : Bool := decide (act = CbAction.audio)
        let e1 := e0 ++ [Eff.edit Msg.downloading]
        -- `try:` body; `fpVar` is the value of the local `filepath`
        -- when the `finally:` block runs
        let body : List Eff × Option (List Char) :=
          match fo with
          | FetchOutcome.raise =>
              ([Eff.fetch audioOnly, Eff.edit Msg.errorGeneric], none)
          | FetchOutcome.ret fp up ti de =>
            match fp with
            | some p =>
              if fexists then
                match dlv with
                | DeliverOutcome.ok =>
                    ([Eff.fetch audioOnly,
                      Eff.replyMedia audioOnly p
                        ((mainCaptionText audioOnly (buildCaption up ti de)).take 1024),
                      Eff.deleteMsg], some p)
                | DeliverOutcome.raise =>
                    ([Eff.fetch audioOnly, Eff.edit Msg.errorGeneric], some p)
              else ([Eff.fetch audioOnly, Eff.edit Msg.downloadFailed], some p)
            | none => ([Eff.fetch audioOnly, Eff.edit Msg.downloadFailed], none)
        -- `finally:` — `bot.clear_session(user_id)`, then
        -- `if filepath: await bot.safe_delete_file(filepath)`
        (e1 ++ body.1 ++ [Eff.clearSess uid] ++
          (match body.2 with
           | some p => [Eff.deleteFile p]
           | none => []),
         clear_session m uid)

/-- Embedding of `main.py` `handle_profile_download` (lines 262–309): fetch, deliver
the photo, and in `finally:` delete the file when one was assigned. -/
def handle_profile_download (fo : FetchOutcome) (fexists : Bool)
    (dlv : DeliverOutcome) : List Eff :=
  let body : List Eff × Option (List Char) :=
    match fo with
    | FetchOutcome.raise => ([Eff.fetch false, Eff.edit Msg.errorGeneric], none)
    | FetchOutcome.ret fp _ _ _ =>
      match fp with
      | some p =>
        if fexists then
          match dlv with
          | DeliverOutcome.ok => ([Eff.fetch false, Eff.replyPhoto p, Eff.deleteMsg], some p)
          | DeliverOutcome.raise => ([Eff.fetch false, Eff.edit Msg.errorGeneric], some p)
        else ([Eff.fetch false, Eff.edit Msg.profileFailed], some p)
      | none => ([Eff.fetch false, Eff.edit Msg.profileFailed], none)
  [Eff.edit Msg.profileFetching] ++ body.1 ++
    (match body.2 with
     | some p => [Eff.deleteFile p]
     | none => [])

/-- Embedding of `main.py` `handle_instagram_message` (lines 210–260) together with
the branch handlers it dispatches to.  Note: `main.py` performs no
rate-limit check anywhere on this path. -/
def handle_instagram_message (m : SessMap) (uid : Nat) (text : List Char)
    (now : Int) (fo : FetchOutcome) (fexists : Bool) (dlv : DeliverOutcome) :
    List Eff × SessMap :=
  match mainExtractInstagramInfo text with
  | none => ([Eff.reply Msg.invalidUrl], m)
  | some (url, ty) =>
    let e0 : List Eff := [Eff.reply Msg.processing]
    match ty with
    | UrlType.profile => (e0 ++ handle_profile_download fo fexists dlv, m)
    | UrlType.reel =>
        (e0 ++ [Eff.createSess uid, Eff.edit Msg.mediaChoice],
         create_session m uid url UrlType.reel now)
    | UrlType.post =>
        (e0 ++ [Eff.createSess uid, Eff.edit Msg.mediaChoice],
         create_session m uid url UrlType.post now)
    | UrlType.story => (e0 ++ [Eff.edit Msg.unsupported], m)

/-!  `instagram_bot.py` handlers. -/
/-- Characters matched by Python's `\s` (ASCII whitespace; the inputs of
interest contain no non-ASCII whitespace). -/
def spaceChar (c : Char) : Bool :=
  c = ' ' || c = '\t' || c = '\n' || c = '\r' || c = '\x0b' || c = '\x0c'

/-- Case-sensitive `(?:www\.)?`. -/
def optLitCS (l : List Char) (s : List Char) : List Char × List Char :=
  match litCS l s with
  | some r => r
  | none => ([], s)

/-- One match attempt of
`https?://(?:www\.)?instagram\.com/[^\s]+` (no flags), the pattern of
`re.findall` in `handle_instagram_url`. -/
def urlAtBot (s : List Char) : Option (List Char) :=
  match litCS ("http".toList) s with
  | none => none
  | some (a1, r1) =>
    let (a2, r2) := optCharCS 's' r1
    match litCS ("://".toList) r2 with
    | none => none
    | some (a3, r3) =>
      let (a4, r4) := optLitCS ("www.".toList) r3
      match litCS ("instagram.com/".toList) r4 with
      | none => none
      | some (a5, r5) =>
        let t := r5.takeWhile (fun c => !(spaceChar c))
        if t.isEmpty then none
        else some (a1 ++ a2 ++ a3 ++ a4 ++ a5 ++ t)

/-- The line `instagram_urls = re.findall(...)` followed by `instagram_urls[0]`:
the leftmost match, if any. -/
def findFirstUrl (text : List Char) : Option (List Char) :=
  research urlAtBot text

/-- The store `context.user_data`, modelled as an association list from the content
id (the variable part of `url_key = f"url_{content_id}"`) to the stored
URL. -/
def UserData := List (List Char × List Char)

instance : DecidableEq UserData := by
  unfold UserData
  infer_instance

/-- Lookup: `url_key in context.user_data` / `context.user_data[url_key]`. -/
def udLookup (ud : UserData) (k : List Char) : Option (List Char) :=
  match ud with
  | [] => none
  | (k', v) :: t => if k' = k then some v else udLookup t k

/-- Store: `context.user_data[url_key] = url`. -/
def udStore (ud : UserData) (k v : List Char) : UserData :=
  (k, v) :: (ud.filter (fun kv => !(kv.1 = k)))

/-- Delete: `del context.user_data[url_key]`. -/
def udErase (ud : UserData) (k : List Char) : UserData :=
  ud.filter (fun kv => !(kv.1 = k))

/-- Oracle for one `instagram_bot.py` `download_with_ytdlp` call: `none`
models the `return None` of its own `except` clause; `some fp` models the
returned result dict whose `'file_path'` entry is `fp` (itself `None`
when no downloaded file was found). -/
def BotFetch := Option (Option (List Char))

/-- Embedding of `instagram_bot.py` `handle_profile_download` (lines 333–363): the
profile picture download, delivery, and the `finally:` file cleanup. -/
def bot_handle_profile_download (picPath : Option (List Char))
    (fexists : Bool) : List Eff :=
  match picPath with
  | some p =>
    if fexists then
      [Eff.fetch false, Eff.replyPhoto p, Eff.deleteMsg, Eff.deleteFile p]
    else [Eff.fetch false, Eff.edit Msg.profileFailed]
  | none => [Eff.fetch false, Eff.edit Msg.profileFailed]

/-- Embedding of `instagram_bot.py` `handle_instagram_url` (lines 276–331): the rate
limiter is consulted first; on denial the handler replies and returns
before any URL extraction, classification, session storage or fetching.
Returns the effect trace, the updated rate record of the acting user and
the updated `user_data`. -/
def handle_instagram_url (rate : List Int) (now : Int) (ud : UserData)
    (uid : Nat) (text : List Char) (picPath : Option (List Char))
    (fexists : Bool) : List Eff × List Int × UserData :=
  let _ := uid
  let res := is_rate_limited now rate
  if res.1 then
    ([Eff.reply Msg.rateLimited], res.2, ud)
  else
    match findFirstUrl text with
    | none => ([Eff.reply Msg.invalidUrl], res.2, ud)
    | some url =>
      let info := botExtractInstagramInfo url
      let e0 : List Eff := [Eff.reply Msg.processing]
      match info.type with
      | BotType.profile =>
          (e0 ++ bot_handle_profile_download picPath fexists, res.2, ud)
      | BotType.reel =>
          let k := info.id.getD []
          (e0 ++ [Eff.edit Msg.mediaChoice, Eff.storeKey k], res.2, udStore ud k url)
      | BotType.post =>
          let k := info.id.getD []
          (e0 ++ [Eff.edit Msg.mediaChoice, Eff.storeKey k], res.2, udStore ud k url)
      | _ => (e0 ++ [Eff.edit Msg.unsupported], res.2, ud)

/-- Embedding of `instagram_bot.py` `handle_format_callback` (lines 389–477).  The
callback data is `f"{format}_{content_id}"` with `format` in
`{video, audio}` (the handler is registered with pattern
`^(video|audio)_`).  The inner `try/finally` deletes the downloaded file;
the outer `finally` removes the `user_data` entry. -/
def handle_format_callback (ud : UserData) (cid : List Char)
    (audioOnly : Bool) (bf : BotFetch) (fexists : Bool)
    (dlv : DeliverOutcome) : List Eff × UserData :=
  let e0 : List Eff := [Eff.answerCb]
  match udLookup ud cid with
  | none => (e0 ++ [Eff.edit Msg.sessionExpired], ud)
  | some _url =>
    let e1 := e0 ++ [Eff.edit Msg.downloading]
    let body : List Eff :=
      match bf with
      | none => [Eff.fetch audioOnly, Eff.edit Msg.downloadFailed]
      | some none => [Eff.fetch audioOnly, Eff.edit Msg.downloadFailed]
      | some (some p) =>
        if fexists then
          match dlv with
          | DeliverOutcome.ok =>
              [Eff.fetch audioOnly, Eff.replyMediaBot audioOnly p,
               Eff.deleteMsg, Eff.deleteFile p]
          | DeliverOutcome.raise =>
              [Eff.fetch audioOnly, Eff.deleteFile p, Eff.edit Msg.errorGeneric]
        else [Eff.fetch audioOnly, Eff.edit Msg.downloadFailed]
    -- outer `finally:` — the key is present on this branch, so it is
    -- removed
    (e1 ++ body ++ [Eff.delKey cid], udErase ud cid)

/-!  C4 — classifier priority order. -/
/-- Modelled from the spec's words, for comparison with
`mainExtractInstagramInfo`: evaluate the same `main.py` patterns but in
the spec's claimed priority order profile, reel, post, story. -/
def specOrderExtract (text : List Char) : Option (List Char × UrlType) :=
  match research profileAtMain text with
  | some (g0, _) => some (g0, UrlType.profile)
  | none =>
  match research reelAtMain text with
  | some (g0, _) => some (g0, UrlType.reel)
  | none =>
  match research postAtMain text with
  | some (g0, _) => some (g0, UrlType.post)
  | none =>
  match research storyAtMain text with
  | some (g0, _) => some (g0, UrlType.story)
  | none => none

/-!  C9 — `main.py` URL matching is case-insensitive.  The embedding
compares `charLower`-images against the (lowercase) pattern literals, so
the classification outcome of `mainExtractInstagramInfo` is invariant
under any change of letter case; this section proves it. -/
/-- Texts that differ only in letter case. -/
def lowerEq (s t : List Char) : Prop :=
  s.map charLower = t.map charLower

/-- Result relation for the `Option (consumed, rest)` combinators. -/
def optRel : Option (List Char × List Char) → Option (List Char × List Char) → Prop
  | none, none => True
  | some (a, r), some (b, u) => lowerEq a b ∧ lowerEq r u
  | _, _ => False

/-- Result relation for the total `(consumed, rest)` combinators. -/
def pairRel (x y : List Char × List Char) : Prop :=
  lowerEq x.1 y.1 ∧ lowerEq x.2 y.2

/-- A plain identifier: non-empty, made of segment characters (no `/`,
`?`, `#`), and without colon or newline (which could otherwise create a
second URL-like match elsewhere in the text). -/
def plainSegId (id : List Char) : Prop :=
  id ≠ [] ∧ ∀ c ∈ id, segChar c = true ∧ c ≠ ':' ∧ c ≠ '\n'

example :
    mainExtractInstagramInfo ("https://instagram.com/alice".toList) =
      some ("https://instagram.com/alice".toList, UrlType.profile) := by
  decide

example :
    mainExtractInstagramInfo ("https://instagram.com/reel/XYZ123/".toList) =
      some ("https://instagram.com/reel/XYZ123/".toList, UrlType.reel) := by
  decide

example : mainExtractInstagramInfo ("not a url".toList) = none := by
  decide

example :
    mainExtractInstagramInfo
      ("https://instagram.com/reel/AAA https://instagram.com/p/BBB".toList) =
      some ("https://instagram.com/p/BBB".toList, UrlType.post) := by
  decide

example :
    botExtractInstagramInfo ("https://instagram.com/alice".toList) =
      ⟨BotType.profile, some ("alice".toList), "https://instagram.com/alice".toList⟩ := by
  decide

example :
    botExtractInstagramInfo ("https://instagram.com/reel/XYZ123/".toList) =
      ⟨BotType.reel, some ("XYZ123".toList), "https://instagram.com/reel/XYZ123/".toList⟩ := by
  decide

example :
    (botExtractInstagramInfo ("https://instagram.com/reel/XYZ123?igshid=1".toList)).id =
      some ("XYZ123?igshid=1".toList) := by
  decide

example : mainExtractInstagramInfo ("https://instagram.com/alice#x".toList) = none := by
  decide

example :
    buildCaption ("bob".toList) ("clip".toList) ("hi".toList) =
      some ("👤 **bob**\n\n📝 clip\n\n💬 hi".toList) := by
  decide

example : buildCaption [] [] [] = none := by decide

/-!  Helper lemmas. -/
lemma length_filter_lt_of_mem {p : Int → Bool} {l : List Int} {x : Int}
    (hx : x ∈ l) (hpx : p x = false) : (l.filter p).length < l.length := by
  induction l with
  | nil => cases hx
  | cons a t ih =>
    rcases List.mem_cons.mp hx with h | h
    · subst h
      simp only [List.filter_cons, hpx, List.length_cons]
      exact Nat.lt_succ_of_le (List.length_filter_le p t)
    · have h2 : (List.filter p t).length < t.length := ih h
      rcases Bool.eq_false_or_eq_true (p a) with hpa | hpa <;>
        simp [List.filter_cons, hpa] <;> omega

lemma pruneRecord_eq_self {now : Int} {rec : List Int}
    (h : ∀ t ∈ rec, now - 3600 < t) : pruneRecord now rec = rec := by
  unfold pruneRecord
  exact List.filter_eq_self.mpr (fun a ha => by simpa using h a ha)

/-- If a valid session exists, the lookup succeeds. -/
lemma sessLookup_of_valid {m : SessMap} {now : Int} {uid : Nat}
    (h : is_session_valid m now uid = true) : ∃ s, sessLookup m uid = some s := by
  unfold is_session_valid at h
  rcases hl : sessLookup m uid with _ | s
  · rw [hl] at h; cases h
  · exact ⟨s, rfl⟩

lemma is_rate_limited_eq (now : Int) (rec : List Int) :
    is_rate_limited now rec =
      if 30 ≤ (pruneRecord now rec).length then (true, pruneRecord now rec)
      else (false, pruneRecord now rec ++ [now]) := rfl

/-!  C2 — rate limiter. -/
set_option maxRecDepth 8000 in
/-- C2: On every admit call, entries at least one hour old are pruned
first; if the pruned count is at least `MAX_REQUESTS_PER_HOUR = 30` the
call is denied and the record is unchanged apart from pruning, else the
current timestamp is appended and the call is admitted.  Consequently any
user with 30 record entries inside the trailing hour is denied, a record
with at most 30 entries one of which has slid out of the window admits
again, and concretely: starting from an empty record, 30 calls at times
1..30 build the record `[1..30]`, a call at time 3600 is denied, and a
call at time 3601 (the window now past the oldest timestamp) is
admitted. -/
theorem rate_limiter_spec :
    (∀ (now : Int) (rec : List Int), 30 ≤ (pruneRecord now rec).length →
        is_rate_limited now rec = (true, pruneRecord now rec))
  ∧ (∀ (now : Int) (rec : List Int), (pruneRecord now rec).length < 30 →
        is_rate_limited now rec = (false, pruneRecord now rec ++ [now]))
  ∧ (∀ (now : Int) (rec : List Int), rec.length = 30 →
        (∀ t ∈ rec, now - 3600 < t) → (is_rate_limited now rec).1 = true)
  ∧ (∀ (now : Int) (rec : List Int) (t0 : Int), rec.length ≤ 30 →
        t0 ∈ rec → t0 ≤ now - 3600 → (is_rate_limited now rec).1 = false)
  ∧ (((List.range 30).map (fun i => (i : Int) + 1)).foldl
        (fun r t => (is_rate_limited t r).2) [] =
        (List.range 30).map (fun i => (i : Int) + 1)
     ∧ (is_rate_limited 3600 ((List.range 30).map (fun i => (i : Int) + 1))).1 = true
     ∧ (is_rate_limited 3601 ((List.range 30).map (fun i => (i : Int) + 1))).1 = false) := by
  refine ⟨?_, ?_, ?_, ?_, by decide⟩
  · intro now rec h
    rw [is_rate_limited_eq, if_pos h]
  · intro now rec h
    rw [is_rate_limited_eq, if_neg (Nat.not_le.mpr h)]
  · intro now rec h30 hin
    have hp : pruneRecord now rec = rec := pruneRecord_eq_self hin
    rw [is_rate_limited_eq, hp, if_pos (le_of_eq h30.symm)]
  · intro now rec t0 hlen hmem hold
    have hlt : (pruneRecord now rec).length < 30 := by
      have : (pruneRecord now rec).length < rec.length :=
        length_filter_lt_of_mem hmem (by simp; omega)
      omega
    rw [is_rate_limited_eq, if_neg (Nat.not_le.mpr hlt)]

/-- Witness for `rate_limiter_spec`: the 31st call inside the window is
denied, and after the window slides past the oldest timestamp a call is
admitted. -/
theorem rate_limiter_spec_witness :
    (is_rate_limited 3600 ((List.range 30).map (fun i => (i : Int) + 1))).1 = true ∧
    (is_rate_limited 3601 ((List.range 30).map (fun i => (i : Int) + 1))).1 = false := by
  exact ⟨rate_limiter_spec.2.2.1 3600 _ (by decide) (by decide),
    rate_limiter_spec.2.2.2.1 3601 _ 1 (by decide) (by decide) (by decide)⟩

/-!  C3 — session validity. -/
/-- C3: A session created at `t0` is valid at exactly the times
`now < t0 + 300` (so valid strictly before `t0 + 300`, invalid at
`t0 + 300` and after); the validity check returns `false` exactly when no
session exists or `now - createdAt ≥ 300`; and the button-callback
handler applies the check before acting, so with an invalid session it
performs no fetch and leaves the session store unchanged. -/
theorem session_validity_spec :
    (∀ (m : SessMap) (uid : Nat) (url : List Char) (ty : UrlType) (t0 now : Int),
        is_session_valid (create_session m uid url ty t0) now uid = true ↔
          now < t0 + 300)
  ∧ (∀ (m : SessMap) (uid : Nat) (now : Int),
        is_session_valid m now uid = false ↔
          sessLookup m uid = none ∨
            ∃ s, sessLookup m uid = some s ∧ 300 ≤ now - s.timestamp)
  ∧ (∀ (m : SessMap) (uid : Nat) (act : CbAction) (owner : Nat) (now : Int)
        (fo : FetchOutcome) (fexists : Bool) (dlv : DeliverOutcome),
        is_session_valid m now uid = false →
        (handle_button_callback m uid act owner now fo fexists dlv).2 = m ∧
        ∀ b, Eff.fetch b ∉ (handle_button_callback m uid act owner now fo fexists dlv).1) := by
  refine ⟨?_, ?_, ?_⟩
  · intro m uid url ty t0 now
    have hl : sessLookup (create_session m uid url ty t0) uid =
        some ⟨url, ty, t0⟩ := by
      simp [create_session, sessLookup]
    simp only [is_session_valid, hl]
    constructor
    · intro h
      have := of_decide_eq_true h
      omega
    · intro h
      exact decide_eq_true (by omega)
  · intro m uid now
    rcases hl : sessLookup m uid with _ | s
    · simp [is_session_valid, hl]
    · simp only [is_session_valid, hl]
      constructor
      · intro h
        refine Or.inr ⟨s, rfl, ?_⟩
        have := of_decide_eq_false h
        omega
      · rintro (h | ⟨s', hs', h⟩)
        · cases h
        · have hss : s' = s := by
            injection hs' with h2
            exact h2.symm
          subst hss
          exact decide_eq_false (by omega)
  · intro m uid act owner now fo fexists dlv h
    constructor
    · simp [handle_button_callback, h]
    · intro b
      simp [handle_button_callback, h]

/-- Witness for `session_validity_spec`: a session created at time 0 is
valid at 299, invalid at 300, and a callback for a user with no session
leaves the store unchanged. -/
theorem session_validity_spec_witness :
    (is_session_valid (create_session [] 7 ("u".toList) UrlType.reel 0) 299 7 = true) ∧
    (is_session_valid (create_session [] 7 ("u".toList) UrlType.reel 0) 300 7 = false) ∧
    (handle_button_callback [] 7 CbAction.video 7 0
        (FetchOutcome.ret none [] [] []) false DeliverOutcome.ok).2 = [] := by
  refine ⟨(session_validity_spec.1 [] 7 _ _ 0 299).mpr (by decide), ?_, ?_⟩
  · have := (session_validity_spec.2.1 (create_session [] 7 ("u".toList) UrlType.reel 0) 7 300).mpr
    exact this (Or.inr ⟨⟨"u".toList, UrlType.reel, 0⟩, by simp [create_session, sessLookup], by decide⟩)
  · exact (session_validity_spec.2.2 [] 7 CbAction.video 7 0
      (FetchOutcome.ret none [] [] []) false DeliverOutcome.ok (by decide)).1

/-!  C10 — own-session validity is checked before the owner check. -/
/-- C10: In `main.py`'s button-callback handler, the acting user's
own session validity is checked first: with an invalid session the
handler answers the query, edits in the session-expired message and
returns — the result does not depend on the owner id embedded in the
callback data (it is never compared), no session is cleared, and the
session store is unchanged for every user. -/
theorem callback_validity_checked_before_owner :
    ∀ (m : SessMap) (uid : Nat) (act : CbAction) (owner : Nat) (now : Int)
      (fo : FetchOutcome) (fexists : Bool) (dlv : DeliverOutcome),
      is_session_valid m now uid = false →
      (handle_button_callback m uid act owner now fo fexists dlv =
          ([Eff.answerCb, Eff.edit Msg.sessionExpired], m)) ∧
      (∀ owner', handle_button_callback m uid act owner now fo fexists dlv =
          handle_button_callback m uid act owner' now fo fexists dlv) ∧
      (∀ u, Eff.clearSess u ∉
          (handle_button_callback m uid act owner now fo fexists dlv).1) := by
  intro m uid act owner now fo fexists dlv h
  refine ⟨by simp [handle_button_callback, h], ?_, ?_⟩
  · intro owner'
    simp [handle_button_callback, h]
  · intro u
    simp [handle_button_callback, h]

/-- Witness for `callback_validity_checked_before_owner`: user 5 has no
session; a callback embedding owner 9 yields the session-expired
response. -/
theorem callback_validity_checked_before_owner_witness :
    handle_button_callback [] 5 CbAction.audio 9 0
        (FetchOutcome.ret none [] [] []) false DeliverOutcome.ok =
      ([Eff.answerCb, Eff.edit Msg.sessionExpired], []) := by
  exact (callback_validity_checked_before_owner [] 5 CbAction.audio 9 0
    (FetchOutcome.ret none [] [] []) false DeliverOutcome.ok (by decide)).1

/-!  C7 — owner mismatch is a safe no-op. -/
/-- C7: For every button callback whose embedded owner id differs
from the acting user's id, `main.py`'s handler rejects it with a safe
response (the not-for-you alert, or the session-expired notice when the
acting user's own session is already invalid), performs no fetch, clears
no session, and leaves the session store's content unchanged for every
user. -/
theorem callback_owner_mismatch_safe_noop :
    ∀ (m : SessMap) (uid : Nat) (act : CbAction) (owner : Nat) (now : Int)
      (fo : FetchOutcome) (fexists : Bool) (dlv : DeliverOutcome),
      uid ≠ owner →
      (handle_button_callback m uid act owner now fo fexists dlv).2 = m ∧
      (∀ b, Eff.fetch b ∉ (handle_button_callback m uid act owner now fo fexists dlv).1) ∧
      (∀ u, Eff.clearSess u ∉ (handle_button_callback m uid act owner now fo fexists dlv).1) ∧
      ((handle_button_callback m uid act owner now fo fexists dlv).1 =
          [Eff.answerCb, Eff.edit Msg.sessionExpired] ∨
        (handle_button_callback m uid act owner now fo fexists dlv).1 =
          [Eff.answerCb, Eff.alert Msg.notForYou]) := by
  intro m uid act owner now fo fexists dlv h
  rcases Bool.eq_false_or_eq_true (is_session_valid m now uid) with hv | hv
  · refine ⟨?_, ?_, ?_, Or.inr ?_⟩ <;> simp [handle_button_callback, hv, h]
  · refine ⟨?_, ?_, ?_, Or.inl ?_⟩ <;> simp [handle_button_callback, hv]

/-- Witness for `callback_owner_mismatch_safe_noop`: user 5 presses the
button of owner 9 while holding a live session of their own. -/
theorem callback_owner_mismatch_safe_noop_witness :
    (handle_button_callback (create_session [] 5 ("u".toList) UrlType.reel 0)
        5 CbAction.video 9 0 (FetchOutcome.ret none [] [] []) false
        DeliverOutcome.ok).2 =
      create_session [] 5 ("u".toList) UrlType.reel 0 := by
  exact (callback_owner_mismatch_safe_noop
    (create_session [] 5 ("u".toList) UrlType.reel 0) 5 CbAction.video 9 0
    (FetchOutcome.ret none [] [] []) false DeliverOutcome.ok (by decide)).1

/-!  C1 — cleanup happens exactly once on the fetch/deliver callback
path.  In `main.py` the `finally:` block of `handle_button_callback`
clears the session once and deletes the file (when one was assigned)
once, on all four terminal outcomes — delivery success, fetch failure,
delivery failure, unexpected exception.  In `instagram_bot.py` the inner
`try/finally` of `handle_format_callback` deletes the file once and the
outer `finally` removes the `user_data` entry once. -/
/-- C1: On every fetch/deliver run of the callback handlers (a
video/audio press with a valid, owned session in `main.py`; a known
content id in `instagram_bot.py`), for every terminal outcome: the
session (resp. stored `user_data` entry) is cleared exactly once, and
whenever the fetcher produced a local file it is deleted exactly once
before the handler returns. -/
theorem cleanup_exactly_once :
    (∀ (m : SessMap) (uid : Nat) (act : CbAction) (now : Int)
       (fo : FetchOutcome) (fexists : Bool) (dlv : DeliverOutcome),
       is_session_valid m now uid = true → act ≠ CbAction.cancel →
       ((handle_button_callback m uid act uid now fo fexists dlv).1.count
          (Eff.clearSess uid) = 1) ∧
       ((handle_button_callback m uid act uid now fo fexists dlv).2 =
          clear_session m uid) ∧
       (∀ p up ti de, fo = FetchOutcome.ret (some p) up ti de →
          (handle_button_callback m uid act uid now fo fexists dlv).1.count
            (Eff.deleteFile p) = 1) ∧
       (∀ up ti de, fo = FetchOutcome.ret none up ti de →
          ∀ q, Eff.deleteFile q ∉
            (handle_button_callback m uid act uid now fo fexists dlv).1))
  ∧ (∀ (ud : UserData) (cid : List Char) (audioOnly : Bool) (bf : BotFetch)
       (fexists : Bool) (dlv : DeliverOutcome) (url : List Char),
       udLookup ud cid = some url →
       ((handle_format_callback ud cid audioOnly bf fexists dlv).1.count
          (Eff.delKey cid) = 1) ∧
       ((handle_format_callback ud cid audioOnly bf fexists dlv).2 =
          udErase ud cid) ∧
       (∀ p, bf = some (some p) → fexists = true →
          (handle_format_callback ud cid audioOnly bf fexists dlv).1.count
            (Eff.deleteFile p) = 1)) := by
  constructor
  · intro m uid act now fo fexists dlv hv hc
    obtain ⟨s, hs⟩ := sessLookup_of_valid hv
    refine ⟨?_, ?_, ?_, ?_⟩
    · cases act with
      | cancel => exact absurd rfl hc
      | video =>
        rcases fo with ⟨_ | p, up, ti, de⟩ | _
        · simp [handle_button_callback, hv, hs]
        · cases fexists <;> cases dlv <;>
            simp [handle_button_callback, hv, hs]
        · simp [handle_button_callback, hv, hs]
      | audio =>
        rcases fo with ⟨_ | p, up, ti, de⟩ | _
        · simp [handle_button_callback, hv, hs]
        · cases fexists <;> cases dlv <;>
            simp [handle_button_callback, hv, hs]
        · simp [handle_button_callback, hv, hs]
    · cases act with
      | cancel => exact absurd rfl hc
      | video =>
        rcases fo with ⟨_ | p, up, ti, de⟩ | _
        · simp [handle_button_callback, hv, hs]
        · cases fexists <;> cases dlv <;>
            simp [handle_button_callback, hv, hs]
        · simp [handle_button_callback, hv, hs]
      | audio =>
        rcases fo with ⟨_ | p, up, ti, de⟩ | _
        · simp [handle_button_callback, hv, hs]
        · cases fexists <;> cases dlv <;>
            simp [handle_button_callback, hv, hs]
        · simp [handle_button_callback, hv, hs]
    · intro p up ti de hfo
      subst hfo
      cases act with
      | cancel => exact absurd rfl hc
      | video =>
        cases fexists <;> cases dlv <;>
          simp [handle_button_callback, hv, hs]
      | audio =>
        cases fexists <;> cases dlv <;>
          simp [handle_button_callback, hv, hs]
    · intro up ti de hfo q
      subst hfo
      cases act with
      | cancel => exact absurd rfl hc
      | video => simp [handle_button_callback, hv, hs]
      | audio => simp [handle_button_callback, hv, hs]
  · intro ud cid audioOnly bf fexists dlv url hud
    refine ⟨?_, ?_, ?_⟩
    · rcases bf with _ | ⟨_ | p⟩
      · simp [handle_format_callback, hud]
      · simp [handle_format_callback, hud]
      · cases fexists <;> cases dlv <;>
          simp [handle_format_callback, hud]
    · rcases bf with _ | ⟨_ | p⟩
      · simp [handle_format_callback, hud]
      · simp [handle_format_callback, hud]
      · cases fexists <;> cases dlv <;>
          simp [handle_format_callback, hud]
    · intro p hbf hex
      subst hbf
      subst hex
      cases dlv <;> simp [handle_format_callback, hud]

/-- Witness for `cleanup_exactly_once`: a successful video delivery for
user 7 clears the session once and deletes the produced file once, and a
successful `instagram_bot.py` delivery for content id `"c"` deletes the
file once and removes the stored entry. -/
theorem cleanup_exactly_once_witness :
    ((handle_button_callback (create_session [] 7 ("u".toList) UrlType.reel 0)
        7 CbAction.video 7 0
        (FetchOutcome.ret (some ("f.mp4".toList)) [] [] []) true
        DeliverOutcome.ok).1.count (Eff.clearSess 7) = 1) ∧
    ((handle_button_callback (create_session [] 7 ("u".toList) UrlType.reel 0)
        7 CbAction.video 7 0
        (FetchOutcome.ret (some ("f.mp4".toList)) [] [] []) true
        DeliverOutcome.ok).1.count (Eff.deleteFile ("f.mp4".toList)) = 1) ∧
    ((handle_format_callback [("c".toList, "u".toList)] ("c".toList) false
        (some (some ("g.mp4".toList))) true DeliverOutcome.ok).1.count
        (Eff.deleteFile ("g.mp4".toList)) = 1) := by
  refine ⟨?_, ?_, ?_⟩
  · exact (cleanup_exactly_once.1 (create_session [] 7 ("u".toList) UrlType.reel 0)
      7 CbAction.video 0 (FetchOutcome.ret (some ("f.mp4".toList)) [] [] []) true
      DeliverOutcome.ok (by decide) (by decide)).1
  · exact (cleanup_exactly_once.1 (create_session [] 7 ("u".toList) UrlType.reel 0)
      7 CbAction.video 0 (FetchOutcome.ret (some ("f.mp4".toList)) [] [] []) true
      DeliverOutcome.ok (by decide) (by decide)).2.2.1 ("f.mp4".toList) [] [] [] rfl
  · exact (cleanup_exactly_once.2 [("c".toList, "u".toList)] ("c".toList) false
      (some (some ("g.mp4".toList))) true DeliverOutcome.ok ("u".toList)
      (by decide)).2.2 ("g.mp4".toList) rfl rfl

/-!  C8 — caption construction. -/
/-- Every element of `caption_parts` is one of the three tagged pieces,
and carries the condition under which it was added. -/
lemma captionParts_mem {up ti d part : List Char}
    (h : part ∈ captionParts up ti d) :
    (up ≠ [] ∧ part = "👤 **".toList ++ up ++ "**".toList) ∨
    ((ti ≠ [] ∧ ti ≠ up) ∧ part = "📝 ".toList ++ ti) ∨
    ((d ≠ [] ∧ d ≠ ti) ∧ part = "💬 ".toList ++
      (if 200 < d.length then d.take 200 ++ "...".toList else d)) := by
  unfold captionParts at h
  rcases List.mem_append.mp h with h1 | hc
  · rcases List.mem_append.mp h1 with ha | hb
    · by_cases hup : up = []
      · rw [if_neg (by simp [hup])] at ha
        cases ha
      · rw [if_pos hup] at ha
        exact Or.inl ⟨hup, List.mem_singleton.mp ha⟩
    · by_cases hti : ti ≠ [] ∧ ti ≠ up
      · rw [if_pos hti] at hb
        exact Or.inr (Or.inl ⟨hti, List.mem_singleton.mp hb⟩)
      · rw [if_neg hti] at hb
        cases hb
  · by_cases hd : d ≠ [] ∧ d ≠ ti
    · rw [if_pos hd] at hc
      exact Or.inr (Or.inr ⟨hd, List.mem_singleton.mp hc⟩)
    · rw [if_neg hd] at hc
      cases hc

/-- C8: Captions built from fetcher metadata omit empty fields (no
part tagged for an omitted field appears); the description part is the
description truncated to 200 characters plus an ellipsis exactly when the
description exceeds 200 characters, and the description unchanged
otherwise; and every caption handed to the transport by
`handle_button_callback` is truncated to at most 1024 characters. -/
theorem caption_construction_spec :
    (∀ (up ti d : List Char), up = [] →
        ∀ part ∈ captionParts up ti d, part.head? ≠ some '👤')
  ∧ (∀ (up ti d : List Char), ti = [] →
        ∀ part ∈ captionParts up ti d, part.head? ≠ some '📝')
  ∧ (∀ (up ti d : List Char), d = [] →
        ∀ part ∈ captionParts up ti d, part.head? ≠ some '💬')
  ∧ (∀ (up ti d : List Char), d ≠ [] → d ≠ ti → 200 < d.length →
        ("💬 ".toList ++ (d.take 200 ++ "...".toList)) ∈ captionParts up ti d)
  ∧ (∀ (up ti d : List Char), d ≠ [] → d ≠ ti → d.length ≤ 200 →
        ("💬 ".toList ++ d) ∈ captionParts up ti d)
  ∧ (∀ (m : SessMap) (uid : Nat) (act : CbAction) (owner : Nat) (now : Int)
        (fo : FetchOutcome) (fexists : Bool) (dlv : DeliverOutcome)
        (b : Bool) (p cap : List Char),
        Eff.replyMedia b p cap ∈
            (handle_button_callback m uid act owner now fo fexists dlv).1 →
        cap.length ≤ 1024) := by
  refine ⟨?_, ?_, ?_, ?_, ?_, ?_⟩
  · intro up ti d hup part hpart
    rcases captionParts_mem hpart with ⟨hne, _⟩ | ⟨_, hpe⟩ | ⟨_, hpe⟩
    · exact absurd hup hne
    · subst hpe; simp
    · subst hpe; simp
  · intro up ti d hti part hpart
    rcases captionParts_mem hpart with ⟨_, hpe⟩ | ⟨⟨hne, _⟩, _⟩ | ⟨_, hpe⟩
    · subst hpe; simp
    · exact absurd hti hne
    · subst hpe; simp
  · intro up ti d hd part hpart
    rcases captionParts_mem hpart with ⟨_, hpe⟩ | ⟨_, hpe⟩ | ⟨⟨hne, _⟩, _⟩
    · subst hpe; simp
    · subst hpe; simp
    · exact absurd hd hne
  · intro up ti d h1 h2 h3
    unfold captionParts
    refine List.mem_append_right _ ?_
    rw [if_pos ⟨h1, h2⟩, if_pos h3]
    exact List.mem_singleton.mpr rfl
  · intro up ti d h1 h2 h3
    unfold captionParts
    refine List.mem_append_right _ ?_
    rw [if_pos ⟨h1, h2⟩, if_neg (by omega)]
    exact List.mem_singleton.mpr rfl
  · intro m uid act owner now fo fexists dlv b p cap hmem
    rcases Bool.eq_false_or_eq_true (is_session_valid m now uid) with hv | hv
    · by_cases ho : uid = owner
      · subst ho
        rcases hl : sessLookup m uid with _ | s
        · simp [handle_button_callback, hv, hl] at hmem
        · cases act with
          | cancel => simp [handle_button_callback, hv, hl] at hmem
          | video =>
            rcases fo with ⟨_ | q, up, ti, de⟩ | _
            · simp [handle_button_callback, hv, hl] at hmem
            · cases fexists <;> cases dlv <;>
                simp [handle_button_callback, hv, hl] at hmem
              obtain ⟨_, _, hcap⟩ := hmem
              subst hcap
              exact List.length_take_le _ _
            · simp [handle_button_callback, hv, hl] at hmem
          | audio =>
            rcases fo with ⟨_ | q, up, ti, de⟩ | _
            · simp [handle_button_callback, hv, hl] at hmem
            · cases fexists <;> cases dlv <;>
                simp [handle_button_callback, hv, hl] at hmem
              obtain ⟨_, _, hcap⟩ := hmem
              subst hcap
              exact List.length_take_le _ _
            · simp [handle_button_callback, hv, hl] at hmem
      · simp [handle_button_callback, hv, ho] at hmem
    · simp [handle_button_callback, hv] at hmem

set_option maxRecDepth 40000 in
/-- Witness for `caption_construction_spec`: a 201-character description
is truncated with an ellipsis, a 200-character one is not, and an
actually delivered caption obeys the 1024 limit. -/
theorem caption_construction_spec_witness :
    (("💬 ".toList ++ (List.replicate 201 'x').take 200 ++ "...".toList) ∈
        captionParts [] [] (List.replicate 201 'x')) ∧
    (("💬 ".toList ++ List.replicate 200 'x') ∈
        captionParts [] [] (List.replicate 200 'x')) ∧
    ((mainCaptionText false (buildCaption [] [] (List.replicate 300 'x'))).take
        1024).length ≤ 1024 := by
  refine ⟨?_, ?_, ?_⟩
  · have := caption_construction_spec.2.2.2.1 [] []
      (List.replicate 201 'x') (by decide) (by decide) (by decide)
    simpa [List.append_assoc] using this
  · exact caption_construction_spec.2.2.2.2.1 [] []
      (List.replicate 200 'x') (by decide) (by decide) (by decide)
  · exact caption_construction_spec.2.2.2.2.2
      (create_session [] 7 ("u".toList) UrlType.reel 0) 7 CbAction.video 7 0
      (FetchOutcome.ret (some ("f".toList)) [] [] (List.replicate 300 'x'))
      true DeliverOutcome.ok false ("f".toList)
      ((mainCaptionText false (buildCaption [] [] (List.replicate 300 'x'))).take 1024)
      (by decide)

/-!  C6 — rate-limit denial precedes all other work.  True of
`instagram_bot.py`'s message handler; `main.py`'s message handler never
consults any rate limiter. -/
/-- C6 counterexample: The claim fails on `main.py`: with the rate
limiter in a state that denies user 7 (30 requests inside the trailing
hour), `main.py`'s message handler still classifies the link and creates
a session for the user. -/
theorem main_message_handler_ignores_rate_limiter :
    ((is_rate_limited 3600 ((List.range 30).map (fun i => (i : Int) + 1))).1 = true) ∧
    ((handle_instagram_message [] 7 ("https://instagram.com/reel/abc".toList) 100
        (FetchOutcome.ret none [] [] []) false DeliverOutcome.ok).2 =
      [(7, ⟨"https://instagram.com/reel/abc".toList, UrlType.reel, 100⟩)]) ∧
    (Eff.createSess 7 ∈
      (handle_instagram_message [] 7 ("https://instagram.com/reel/abc".toList) 100
        (FetchOutcome.ret none [] [] []) false DeliverOutcome.ok).1) := by
  decide

/-- C6 amended: In `instagram_bot.py`'s message handler, a
rate-limiter denial makes the handler reply with the rate-limited
message and stop: no URL extraction or classification (the result does
not depend on the message text), no `user_data` storage, and no
fetching.  `main.py`'s message handler performs no rate-limit check, so
the guarantee holds only for `instagram_bot.py`. -/
theorem bot_rate_limit_denial_precedes_all_work :
    ∀ (rate : List Int) (now : Int) (ud : UserData) (uid : Nat)
      (text : List Char) (picPath : Option (List Char)) (fexists : Bool),
      (is_rate_limited now rate).1 = true →
      ((handle_instagram_url rate now ud uid text picPath fexists).1 =
          [Eff.reply Msg.rateLimited]) ∧
      ((handle_instagram_url rate now ud uid text picPath fexists).2.2 = ud) ∧
      (∀ b, Eff.fetch b ∉
          (handle_instagram_url rate now ud uid text picPath fexists).1) ∧
      (∀ k, Eff.storeKey k ∉
          (handle_instagram_url rate now ud uid text picPath fexists).1) ∧
      (∀ text', handle_instagram_url rate now ud uid text' picPath fexists =
          handle_instagram_url rate now ud uid text picPath fexists) := by
  intro rate now ud uid text picPath fexists h
  refine ⟨?_, ?_, ?_, ?_, ?_⟩ <;>
    simp [handle_instagram_url, h]

/-- Witness for `bot_rate_limit_denial_precedes_all_work`: a denied user
gets only the rate-limited reply, whatever the message text. -/
theorem bot_rate_limit_denial_precedes_all_work_witness :
    (handle_instagram_url ((List.range 30).map (fun i => (i : Int) + 1)) 3600
        [] 7 ("https://instagram.com/reel/abc".toList) none false).1 =
      [Eff.reply Msg.rateLimited] := by
  exact (bot_rate_limit_denial_precedes_all_work
    ((List.range 30).map (fun i => (i : Int) + 1)) 3600 [] 7
    ("https://instagram.com/reel/abc".toList) none false (by decide)).1

/-- C4 counterexample: `main.py` iterates its pattern dict in the
order profile, post, reel, story — not the claimed profile, reel, post,
story: on a text containing a reel URL followed by a post URL, the code
classifies `post`, while the claimed order would classify `reel`. -/
theorem classifier_priority_order_counterexample :
    (mainExtractInstagramInfo
        ("https://instagram.com/reel/AAA https://instagram.com/p/BBB".toList) =
      some ("https://instagram.com/p/BBB".toList, UrlType.post)) ∧
    (specOrderExtract
        ("https://instagram.com/reel/AAA https://instagram.com/p/BBB".toList) =
      some ("https://instagram.com/reel/AAA https:/".toList, UrlType.reel)) ∧
    (mainExtractInstagramInfo
        ("https://instagram.com/reel/AAA https://instagram.com/p/BBB".toList) ≠
      specOrderExtract
        ("https://instagram.com/reel/AAA https://instagram.com/p/BBB".toList)) := by
  refine ⟨by decide, by decide, by decide⟩

/-- C4 amended: Each classifier returns the first successful match
of its pattern dict, in insertion order: `main.py` uses profile, post,
reel, story (post before reel), `instagram_bot.py` uses profile, reel,
post, story.  Ties between competing URLs in one text are broken by that
pattern priority, not by position: `main.py` classifies `post` whether
the post URL comes first or last, and `instagram_bot.py`'s classifier
picks `reel` even when a post URL precedes it.  The concrete
classifications claimed in the spec hold for both files (with a
non-match reported as `None` in `main.py` and as type `unknown` in
`instagram_bot.py`). -/
theorem classifier_priority_order_amended :
    ((mainExtractInstagramInfo
        ("https://instagram.com/reel/AAA https://instagram.com/p/BBB".toList)).map
        Prod.snd = some UrlType.post) ∧
    ((mainExtractInstagramInfo
        ("https://instagram.com/p/BBB https://instagram.com/reel/AAA".toList)).map
        Prod.snd = some UrlType.post) ∧
    ((botExtractInstagramInfo
        ("https://instagram.com/p/AAA https://instagram.com/reel/BBB".toList)).type =
      BotType.reel) ∧
    (mainExtractInstagramInfo ("https://instagram.com/alice".toList) =
      some ("https://instagram.com/alice".toList, UrlType.profile)) ∧
    (botExtractInstagramInfo ("https://instagram.com/alice".toList) =
      ⟨BotType.profile, some ("alice".toList), "https://instagram.com/alice".toList⟩) ∧
    (mainExtractInstagramInfo ("https://instagram.com/reel/XYZ123/".toList) =
      some ("https://instagram.com/reel/XYZ123/".toList, UrlType.reel)) ∧
    (botExtractInstagramInfo ("https://instagram.com/reel/XYZ123/".toList) =
      ⟨BotType.reel, some ("XYZ123".toList),
        "https://instagram.com/reel/XYZ123/".toList⟩) ∧
    (mainExtractInstagramInfo ("not a url".toList) = none) ∧
    (botExtractInstagramInfo ("not a url".toList) =
      ⟨BotType.unknown, none, "not a url".toList⟩) := by
  refine ⟨by decide, by decide, by decide, by decide, by decide, by decide,
    by decide, by decide, by decide⟩

lemma charLower_eq_qm {c : Char} : charLower c = '?' ↔ c = '?' := by
  unfold charLower
  split <;> simp_all

lemma charLower_eq_nl {c : Char} : charLower c = '\n' ↔ c = '\n' := by
  unfold charLower
  split <;> simp_all

lemma charLower_eq_colon {c : Char} : charLower c = ':' ↔ c = ':' := by
  unfold charLower
  split <;> simp_all

lemma charLower_eq_slash {c : Char} : charLower c = '/' ↔ c = '/' := by
  unfold charLower
  split <;> simp_all

lemma segChar_charLower (c : Char) : segChar (charLower c) = segChar c := by
  unfold charLower
  split <;> rfl

lemma dotChar_charLower (c : Char) : dotChar (charLower c) = dotChar c := by
  unfold charLower
  split <;> rfl

lemma lowerEq_nil_iff {t : List Char} : lowerEq [] t ↔ t = [] := by
  unfold lowerEq
  cases t <;> simp

lemma lowerEq_cons_iff {c : Char} {cs t : List Char} :
    lowerEq (c :: cs) t ↔
      ∃ d ds, t = d :: ds ∧ charLower c = charLower d ∧ lowerEq cs ds := by
  unfold lowerEq
  cases t with
  | nil => simp
  | cons d ds =>
    constructor
    · intro h
      simp only [List.map_cons, List.cons.injEq] at h
      exact ⟨d, ds, rfl, h.1, h.2⟩
    · rintro ⟨d', ds', he, h1, h2⟩
      cases he
      simp [h1, h2]

lemma lowerEq_refl (s : List Char) : lowerEq s s := rfl

lemma lowerEq_append {a b u v : List Char} (h1 : lowerEq a b)
    (h2 : lowerEq u v) : lowerEq (a ++ u) (b ++ v) := by
  unfold lowerEq at *
  simp [h1, h2]

lemma litIC_rel (l : List Char) {s t : List Char} (h : lowerEq s t) :
    optRel (litIC l s) (litIC l t) := by
  induction l generalizing s t with
  | nil => exact ⟨rfl, h⟩
  | cons p ps ih =>
    cases s with
    | nil =>
      have ht : t = [] := lowerEq_nil_iff.mp h
      subst ht
      exact trivial
    | cons c cs =>
      obtain ⟨d, ds, he, hcd, hrest⟩ := lowerEq_cons_iff.mp h
      subst he
      by_cases hc : charLower c = p
      · have hd : charLower d = p := by rw [← hcd]; exact hc
        have e1 : litIC (p :: ps) (c :: cs) =
            (litIC ps cs).map (fun x => (c :: x.1, x.2)) := by
          simp [litIC, hc]
        have e2 : litIC (p :: ps) (d :: ds) =
            (litIC ps ds).map (fun x => (d :: x.1, x.2)) := by
          simp [litIC, hd]
        rw [e1, e2]
        have hrec := ih hrest
        rcases h1 : litIC ps cs with _ | ⟨a, r⟩ <;>
          rcases h2 : litIC ps ds with _ | ⟨b, u⟩ <;> rw [h1, h2] at hrec
        · exact trivial
        · exact hrec.elim
        · exact hrec.elim
        · exact ⟨lowerEq_cons_iff.mpr ⟨d, b, rfl, hcd, hrec.1⟩, hrec.2⟩
      · have hd : ¬ charLower d = p := by rw [← hcd]; exact hc
        have e1 : litIC (p :: ps) (c :: cs) = none := by simp [litIC, hc]
        have e2 : litIC (p :: ps) (d :: ds) = none := by simp [litIC, hd]
        rw [e1, e2]
        exact trivial

lemma optCharIC_rel (p : Char) {s t : List Char} (h : lowerEq s t) :
    pairRel (optCharIC p s) (optCharIC p t) := by
  cases s with
  | nil =>
    have ht : t = [] := lowerEq_nil_iff.mp h
    subst ht
    exact ⟨rfl, rfl⟩
  | cons c cs =>
    obtain ⟨d, ds, he, hcd, hrest⟩ := lowerEq_cons_iff.mp h
    subst he
    by_cases hc : charLower c = p
    · have hd : charLower d = p := by rw [← hcd]; exact hc
      simp only [optCharIC, hc, hd, if_pos]
      exact ⟨lowerEq_cons_iff.mpr ⟨d, [], rfl, hcd, rfl⟩, hrest⟩
    · have hd : ¬ charLower d = p := by rw [← hcd]; exact hc
      simp only [optCharIC, hc, hd, if_neg, if_false]
      exact ⟨rfl, lowerEq_cons_iff.mpr ⟨d, ds, rfl, hcd, hrest⟩⟩

lemma optLitIC_rel (l : List Char) {s t : List Char} (h : lowerEq s t) :
    pairRel (optLitIC l s) (optLitIC l t) := by
  unfold optLitIC
  have hrec := litIC_rel l h
  rcases h1 : litIC l s with _ | ⟨a, r⟩ <;>
    rcases h2 : litIC l t with _ | ⟨b, u⟩ <;> rw [h1, h2] at hrec
  · exact ⟨rfl, h⟩
  · exact hrec.elim
  · exact hrec.elim
  · exact hrec

lemma takeWhile_seg_rel {s t : List Char} (h : lowerEq s t) :
    lowerEq (s.takeWhile segChar) (t.takeWhile segChar) ∧
      lowerEq (s.dropWhile segChar) (t.dropWhile segChar) ∧
      (s.takeWhile segChar).length = (t.takeWhile segChar).length := by
  induction s generalizing t with
  | nil =>
    have ht : t = [] := lowerEq_nil_iff.mp h
    subst ht
    exact ⟨rfl, rfl, rfl⟩
  | cons c cs ih =>
    obtain ⟨d, ds, he, hcd, hrest⟩ := lowerEq_cons_iff.mp h
    subst he
    have hseg : segChar c = segChar d := by
      rw [← segChar_charLower c, ← segChar_charLower d, hcd]
    rcases Bool.eq_false_or_eq_true (segChar c) with hsc | hsc
    · have hsd : segChar d = true := by rw [← hseg]; exact hsc
      obtain ⟨h1, h2, h3⟩ := ih hrest
      rw [List.takeWhile_cons, List.takeWhile_cons, List.dropWhile_cons,
        List.dropWhile_cons, hsc, hsd]
      simp only [if_true]
      exact ⟨lowerEq_cons_iff.mpr ⟨d, ds.takeWhile segChar, rfl, hcd, h1⟩, h2,
        by simp [h3]⟩
    · have hsd : segChar d = false := by rw [← hseg]; exact hsc
      rw [List.takeWhile_cons, List.takeWhile_cons, List.dropWhile_cons,
        List.dropWhile_cons, hsc, hsd]
      simp only [Bool.false_eq_true, if_false]
      exact ⟨rfl, lowerEq_cons_iff.mpr ⟨d, ds, rfl, hcd, hrest⟩, by trivial⟩

lemma drop_length_takeWhile (p : Char → Bool) (s : List Char) :
    s.drop (s.takeWhile p).length = s.dropWhile p := by
  have h := List.takeWhile_append_dropWhile (p := p) (l := s)
  nth_rewrite 2 [← h]
  rw [List.drop_left]

lemma munchSeg_eq (s : List Char) :
    munchSeg s =
      if (s.takeWhile segChar).isEmpty then none
      else some (s.takeWhile segChar, s.dropWhile segChar) := by
  unfold munchSeg
  dsimp only
  rw [drop_length_takeWhile]

lemma munchSeg_rel {s t : List Char} (h : lowerEq s t) :
    optRel (munchSeg s) (munchSeg t) := by
  obtain ⟨h1, h2, h3⟩ := takeWhile_seg_rel h
  rw [munchSeg_eq, munchSeg_eq]
  by_cases he : (s.takeWhile segChar).isEmpty
  · have het : (t.takeWhile segChar).isEmpty := by
      rw [List.isEmpty_iff_length_eq_zero] at he ⊢
      omega
    simp only [he, het, if_pos]
    exact trivial
  · have het : ¬ (t.takeWhile segChar).isEmpty = true := by
      rw [List.isEmpty_iff_length_eq_zero] at he ⊢
      omega
    simp only [he, het, if_neg, if_false]
    exact ⟨h1, h2⟩

lemma takeWhile_dot_rel {s t : List Char} (h : lowerEq s t) :
    lowerEq (s.takeWhile dotChar) (t.takeWhile dotChar) ∧
      lowerEq (s.dropWhile dotChar) (t.dropWhile dotChar) ∧
      (s.takeWhile dotChar).length = (t.takeWhile dotChar).length := by
  induction s generalizing t with
  | nil =>
    have ht : t = [] := lowerEq_nil_iff.mp h
    subst ht
    exact ⟨rfl, rfl, rfl⟩
  | cons c cs ih =>
    obtain ⟨d, ds, he, hcd, hrest⟩ := lowerEq_cons_iff.mp h
    subst he
    have hseg : dotChar c = dotChar d := by
      rw [← dotChar_charLower c, ← dotChar_charLower d, hcd]
    rcases Bool.eq_false_or_eq_true (dotChar c) with hsc | hsc
    · have hsd : dotChar d = true := by rw [← hseg]; exact hsc
      obtain ⟨h1, h2, h3⟩ := ih hrest
      rw [List.takeWhile_cons, List.takeWhile_cons, List.dropWhile_cons,
        List.dropWhile_cons, hsc, hsd]
      simp only [if_true]
      exact ⟨lowerEq_cons_iff.mpr ⟨d, ds.takeWhile dotChar, rfl, hcd, h1⟩, h2,
        by simp [h3]⟩
    · have hsd : dotChar d = false := by rw [← hseg]; exact hsc
      rw [List.takeWhile_cons, List.takeWhile_cons, List.dropWhile_cons,
        List.dropWhile_cons, hsc, hsd]
      simp only [Bool.false_eq_true, if_false]
      exact ⟨rfl, lowerEq_cons_iff.mpr ⟨d, ds, rfl, hcd, hrest⟩, by trivial⟩

lemma optQS_rel {s t : List Char} (h : lowerEq s t) :
    pairRel (optQS s) (optQS t) := by
  cases s with
  | nil =>
    have ht : t = [] := lowerEq_nil_iff.mp h
    subst ht
    exact ⟨rfl, rfl⟩
  | cons c cs =>
    obtain ⟨d, ds, he, hcd, hrest⟩ := lowerEq_cons_iff.mp h
    subst he
    by_cases hc : c = '?'
    · have hd : d = '?' := by
        rw [← charLower_eq_qm, ← hcd, hc]
        rfl
      subst hc
      subst hd
      simp only [optQS, if_pos rfl]
      obtain ⟨h1, h2, h3⟩ := takeWhile_dot_rel hrest
      rw [drop_length_takeWhile, drop_length_takeWhile]
      exact ⟨lowerEq_cons_iff.mpr ⟨'?', ds.takeWhile dotChar, rfl, rfl, h1⟩, h2⟩
    · have hd : ¬ d = '?' := by
        intro he
        apply hc
        rw [← charLower_eq_qm, hcd, he]
        rfl
      simp only [optQS, if_neg hc, if_neg hd]
      exact ⟨rfl, lowerEq_cons_iff.mpr ⟨d, ds, rfl, hcd, hrest⟩⟩

lemma endAnchor_rel {s t : List Char} (h : lowerEq s t) :
    endAnchor s = endAnchor t := by
  cases s with
  | nil =>
    have ht : t = [] := lowerEq_nil_iff.mp h
    subst ht
    rfl
  | cons c cs =>
    obtain ⟨d, ds, he, hcd, hrest⟩ := lowerEq_cons_iff.mp h
    subst he
    cases cs with
    | nil =>
      have hds : ds = [] := lowerEq_nil_iff.mp hrest
      subst hds
      have hiff : c = '\n' ↔ d = '\n' := by
        constructor
        · intro hcc
          rw [← charLower_eq_nl, ← hcd, hcc]
          rfl
        · intro hdd
          rw [← charLower_eq_nl, hcd, hdd]
          rfl
      simp [endAnchor, hiff]
    | cons c2 cs2 =>
      obtain ⟨d2, ds2, he2, _, _⟩ := lowerEq_cons_iff.mp hrest
      subst he2
      simp [endAnchor]

lemma schemeHostIC_rel {s t : List Char} (h : lowerEq s t) :
    optRel (schemeHostIC s) (schemeHostIC t) := by
  have q1 := litIC_rel ("http".toList) h
  rcases e1 : litIC ("http".toList) s with _ | ⟨a1, r1s⟩ <;>
    rcases e2 : litIC ("http".toList) t with _ | ⟨b1, r1t⟩ <;> rw [e1, e2] at q1
  · have hs : schemeHostIC s = none := by simp only [schemeHostIC, e1]
    have ht : schemeHostIC t = none := by simp only [schemeHostIC, e2]
    rw [hs, ht]
    exact trivial
  · exact q1.elim
  · exact q1.elim
  · obtain ⟨ha1, hr1⟩ := q1
    have q2 := optCharIC_rel 's' hr1
    rcases e3 : optCharIC 's' r1s with ⟨a2, r2s⟩
    rcases e4 : optCharIC 's' r1t with ⟨b2, r2t⟩
    rw [e3, e4] at q2
    obtain ⟨ha2, hr2⟩ := q2
    have q3 := litIC_rel ("://".toList) hr2
    rcases e5 : litIC ("://".toList) r2s with _ | ⟨a3, r3s⟩ <;>
      rcases e6 : litIC ("://".toList) r2t with _ | ⟨b3, r3t⟩ <;> rw [e5, e6] at q3
    · have hs : schemeHostIC s = none := by
        simp only [schemeHostIC, e1, e3, e5]
      have ht : schemeHostIC t = none := by
        simp only [schemeHostIC, e2, e4, e6]
      rw [hs, ht]
      exact trivial
    · exact q3.elim
    · exact q3.elim
    · obtain ⟨ha3, hr3⟩ := q3
      have q4 := optLitIC_rel ("www.".toList) hr3
      rcases e7 : optLitIC ("www.".toList) r3s with ⟨a4, r4s⟩
      rcases e8 : optLitIC ("www.".toList) r3t with ⟨b4, r4t⟩
      rw [e7, e8] at q4
      obtain ⟨ha4, hr4⟩ := q4
      have q5 := litIC_rel ("instagram.com/".toList) hr4
      rcases e9 : litIC ("instagram.com/".toList) r4s with _ | ⟨a5, r5s⟩ <;>
        rcases e10 : litIC ("instagram.com/".toList) r4t with _ | ⟨b5, r5t⟩ <;>
          rw [e9, e10] at q5
      · have hs : schemeHostIC s = none := by
          simp only [schemeHostIC, e1, e3, e5, e7, e9]
        have ht : schemeHostIC t = none := by
          simp only [schemeHostIC, e2, e4, e6, e8, e10]
        rw [hs, ht]
        exact trivial
      · exact q5.elim
      · exact q5.elim
      · obtain ⟨ha5, hr5⟩ := q5
        have hs : schemeHostIC s = some (a1 ++ a2 ++ a3 ++ a4 ++ a5, r5s) := by
          simp only [schemeHostIC, e1, e3, e5, e7, e9]
        have ht : schemeHostIC t = some (b1 ++ b2 ++ b3 ++ b4 ++ b5, r5t) := by
          simp only [schemeHostIC, e2, e4, e6, e8, e10]
        rw [hs, ht]
        exact ⟨lowerEq_append (lowerEq_append (lowerEq_append
          (lowerEq_append ha1 ha2) ha3) ha4) ha5, hr5⟩

lemma profileAtMain_isSome {s t : List Char} (h : lowerEq s t) :
    (profileAtMain s).isSome = (profileAtMain t).isSome := by
  have q1 := schemeHostIC_rel h
  rcases e1 : schemeHostIC s with _ | ⟨a, rs⟩ <;>
    rcases e2 : schemeHostIC t with _ | ⟨b, rt⟩ <;> rw [e1, e2] at q1
  · simp [profileAtMain, e1, e2]
  · exact q1.elim
  · exact q1.elim
  · obtain ⟨ha, hr⟩ := q1
    have q2 := munchSeg_rel hr
    rcases e3 : munchSeg rs with _ | ⟨g, r1s⟩ <;>
      rcases e4 : munchSeg rt with _ | ⟨g', r1t⟩ <;> rw [e3, e4] at q2
    · simp [profileAtMain, e1, e2, e3, e4]
    · exact q2.elim
    · exact q2.elim
    · obtain ⟨hg, hr1⟩ := q2
      have q3 := optCharIC_rel '/' hr1
      rcases e5 : optCharIC '/' r1s with ⟨bb, r2s⟩
      rcases e6 : optCharIC '/' r1t with ⟨bb2, r2t⟩
      rw [e5, e6] at q3
      obtain ⟨hb, hr2⟩ := q3
      have q4 := optQS_rel hr2
      rcases e7 : optQS r2s with ⟨cc, r3s⟩
      rcases e8 : optQS r2t with ⟨cc2, r3t⟩
      rw [e7, e8] at q4
      obtain ⟨hc, hr3⟩ := q4
      have hend := endAnchor_rel hr3
      rcases Bool.eq_false_or_eq_true (endAnchor r3s) with hE | hE <;>
        have hE2 := hend.symm.trans hE
      · simp [profileAtMain, e1, e2, e3, e4, e5, e6, e7, e8, hE, hE2]
      · simp [profileAtMain, e1, e2, e3, e4, e5, e6, e7, e8, hE, hE2]

lemma postAtMain_isSome {s t : List Char} (h : lowerEq s t) :
    (postAtMain s).isSome = (postAtMain t).isSome := by
  have q1 := schemeHostIC_rel h
  rcases e1 : schemeHostIC s with _ | ⟨a, rs⟩ <;>
    rcases e2 : schemeHostIC t with _ | ⟨b, rt⟩ <;> rw [e1, e2] at q1
  · simp [postAtMain, e1, e2]
  · exact q1.elim
  · exact q1.elim
  · obtain ⟨ha, hr⟩ := q1
    have ql := litIC_rel (['p', '/'] : List Char) hr
    rcases el1 : litIC (['p', '/'] : List Char) rs with _ | ⟨l, rs0⟩ <;>
      rcases el2 : litIC (['p', '/'] : List Char) rt with _ | ⟨l2, rt0⟩ <;> rw [el1, el2] at ql
    · simp [postAtMain, e1, e2, el1, el2]
    · exact ql.elim
    · exact ql.elim
    · obtain ⟨hl, hr0⟩ := ql
      have q2 := munchSeg_rel hr0
      rcases e3 : munchSeg rs0 with _ | ⟨g, r1s⟩ <;>
        rcases e4 : munchSeg rt0 with _ | ⟨g', r1t⟩ <;> rw [e3, e4] at q2
      · simp [postAtMain, e1, e2, el1, el2, e3, e4]
      · exact q2.elim
      · exact q2.elim
      · simp [postAtMain, e1, e2, el1, el2, e3, e4]

lemma reelAtMain_isSome {s t : List Char} (h : lowerEq s t) :
    (reelAtMain s).isSome = (reelAtMain t).isSome := by
  have q1 := schemeHostIC_rel h
  rcases e1 : schemeHostIC s with _ | ⟨a, rs⟩ <;>
    rcases e2 : schemeHostIC t with _ | ⟨b, rt⟩ <;> rw [e1, e2] at q1
  · simp [reelAtMain, e1, e2]
  · exact q1.elim
  · exact q1.elim
  · obtain ⟨ha, hr⟩ := q1
    have ql := litIC_rel (['r', 'e', 'e', 'l', '/'] : List Char) hr
    rcases el1 : litIC (['r', 'e', 'e', 'l', '/'] : List Char) rs with _ | ⟨l, rs0⟩ <;>
      rcases el2 : litIC (['r', 'e', 'e', 'l', '/'] : List Char) rt with _ | ⟨l2, rt0⟩ <;> rw [el1, el2] at ql
    · simp [reelAtMain, e1, e2, el1, el2]
    · exact ql.elim
    · exact ql.elim
    · obtain ⟨hl, hr0⟩ := ql
      have q2 := munchSeg_rel hr0
      rcases e3 : munchSeg rs0 with _ | ⟨g, r1s⟩ <;>
        rcases e4 : munchSeg rt0 with _ | ⟨g', r1t⟩ <;> rw [e3, e4] at q2
      · simp [reelAtMain, e1, e2, el1, el2, e3, e4]
      · exact q2.elim
      · exact q2.elim
      · simp [reelAtMain, e1, e2, el1, el2, e3, e4]

lemma storyAtMain_isSome {s t : List Char} (h : lowerEq s t) :
    (storyAtMain s).isSome = (storyAtMain t).isSome := by
  have q1 := schemeHostIC_rel h
  rcases e1 : schemeHostIC s with _ | ⟨a, rs⟩ <;>
    rcases e2 : schemeHostIC t with _ | ⟨b, rt⟩ <;> rw [e1, e2] at q1
  · simp [storyAtMain, e1, e2]
  · exact q1.elim
  · exact q1.elim
  · obtain ⟨ha, hr⟩ := q1
    have ql := litIC_rel (['s', 't', 'o', 'r', 'i', 'e', 's', '/'] : List Char) hr
    rcases el1 : litIC (['s', 't', 'o', 'r', 'i', 'e', 's', '/'] : List Char) rs with _ | ⟨l, rs0⟩ <;>
      rcases el2 : litIC (['s', 't', 'o', 'r', 'i', 'e', 's', '/'] : List Char) rt with _ | ⟨l2, rt0⟩ <;>
        rw [el1, el2] at ql
    · simp [storyAtMain, e1, e2, el1, el2]
    · exact ql.elim
    · exact ql.elim
    · obtain ⟨hl, hr0⟩ := ql
      have q2 := munchSeg_rel hr0
      rcases e3 : munchSeg rs0 with _ | ⟨g, r1s⟩ <;>
        rcases e4 : munchSeg rt0 with _ | ⟨g', r1t⟩ <;> rw [e3, e4] at q2
      · simp [storyAtMain, e1, e2, el1, el2, e3, e4]
      · exact q2.elim
      · exact q2.elim
      · obtain ⟨hg, hr1⟩ := q2
        have ql2 := litIC_rel (['/'] : List Char) hr1
        rcases es1 : litIC (['/'] : List Char) r1s with _ | ⟨sl, r2s⟩ <;>
          rcases es2 : litIC (['/'] : List Char) r1t with _ | ⟨sl2, r2t⟩ <;>
            rw [es1, es2] at ql2
        · simp [storyAtMain, e1, e2, el1, el2, e3, e4, es1, es2]
        · exact ql2.elim
        · exact ql2.elim
        · obtain ⟨hsl, hr2⟩ := ql2
          have q5 := munchSeg_rel hr2
          rcases e5 : munchSeg r2s with _ | ⟨g2, r3s⟩ <;>
            rcases e6 : munchSeg r2t with _ | ⟨g2', r3t⟩ <;> rw [e5, e6] at q5
          · simp [storyAtMain, e1, e2, el1, el2, e3, e4, es1, es2, e5, e6]
          · exact q5.elim
          · exact q5.elim
          · simp [storyAtMain, e1, e2, el1, el2, e3, e4, es1, es2, e5, e6]

lemma research_isSome {M : List Char → Option (List Char × List Char)}
    (hM : ∀ s t, lowerEq s t → (M s).isSome = (M t).isSome) :
    ∀ {s t : List Char}, lowerEq s t →
      (research M s).isSome = (research M t).isSome := by
  intro s
  induction s with
  | nil =>
    intro t h
    have ht : t = [] := lowerEq_nil_iff.mp h
    subst ht
    rfl
  | cons c cs ih =>
    intro t h
    obtain ⟨d, ds, he, hcd, hrest⟩ := lowerEq_cons_iff.mp h
    subst he
    have h0 := hM (c :: cs) (d :: ds) h
    simp only [research]
    rcases m1 : M (c :: cs) with _ | v1 <;> rcases m2 : M (d :: ds) with _ | v2 <;>
      rw [m1, m2] at h0
    · exact ih hrest
    · exact absurd h0 (by simp)
    · exact absurd h0 (by simp)
    · rfl

/-- C9: `main.py`'s URL matching is case-insensitive
(`re.IGNORECASE`): any two texts with the same `charLower`-image — in
particular texts differing only in the letter case of the URL's scheme,
host or path markers — receive the same classification kind from
`extract_instagram_info`. -/
theorem main_classifier_case_insensitive :
    ∀ (s t : List Char), s.map charLower = t.map charLower →
      (mainExtractInstagramInfo s).map Prod.snd =
        (mainExtractInstagramInfo t).map Prod.snd := by
  intro s t h
  have h1 := research_isSome (fun a b hab => profileAtMain_isSome hab) (s := s) (t := t) h
  have h2 := research_isSome (fun a b hab => postAtMain_isSome hab) (s := s) (t := t) h
  have h3 := research_isSome (fun a b hab => reelAtMain_isSome hab) (s := s) (t := t) h
  have h4 := research_isSome (fun a b hab => storyAtMain_isSome hab) (s := s) (t := t) h
  unfold mainExtractInstagramInfo
  rcases p1 : research profileAtMain s with _ | ⟨g1, d1⟩ <;>
    rcases p2 : research profileAtMain t with _ | ⟨g2, d2⟩ <;> rw [p1, p2] at h1
  case none.none =>
    rcases q1 : research postAtMain s with _ | ⟨g1, d1⟩ <;>
      rcases q2 : research postAtMain t with _ | ⟨g2, d2⟩ <;> rw [q1, q2] at h2
    case none.none =>
      rcases r1 : research reelAtMain s with _ | ⟨g1, d1⟩ <;>
        rcases r2 : research reelAtMain t with _ | ⟨g2, d2⟩ <;> rw [r1, r2] at h3
      case none.none =>
        rcases w1 : research storyAtMain s with _ | ⟨g1, d1⟩ <;>
          rcases w2 : research storyAtMain t with _ | ⟨g2, d2⟩ <;> rw [w1, w2] at h4
        all_goals
          first
            | (simp only [Option.isSome_none, Option.isSome_some] at h4
               exact Bool.noConfusion h4)
            | simp
      all_goals
        first
          | (simp only [Option.isSome_none, Option.isSome_some] at h3
             exact Bool.noConfusion h3)
          | simp
    all_goals
      first
        | (simp only [Option.isSome_none, Option.isSome_some] at h2
           exact Bool.noConfusion h2)
        | simp
  all_goals
    first
      | (simp only [Option.isSome_none, Option.isSome_some] at h1
         exact Bool.noConfusion h1)
      | simp

/-- Witness for `main_classifier_case_insensitive`: an all-caps and an
all-lowercase reel URL differ only in case and get the same kind. -/
theorem main_classifier_case_insensitive_witness :
    ("HTTPS://WWW.INSTAGRAM.COM/REEL/XYZ123".toList.map charLower =
      "https://www.instagram.com/reel/xyz123".toList.map charLower) ∧
    ((mainExtractInstagramInfo ("HTTPS://WWW.INSTAGRAM.COM/REEL/XYZ123".toList)).map
        Prod.snd =
      (mainExtractInstagramInfo ("https://www.instagram.com/reel/xyz123".toList)).map
        Prod.snd) :=
  ⟨by decide, main_classifier_case_insensitive _ _ (by decide)⟩

/-!  C5 — identifier extraction.  Infrastructure: stepping lemmas for the
search loop, characterizations of the greedy munches and literals, and
"the pattern needs this character" lemmas. -/
lemma research_cons_none {α : Type} {M : List Char → Option α} {c : Char}
    {t : List Char} (h : M (c :: t) = none) :
    research M (c :: t) = research M t := by
  simp [research, h]

lemma research_cons_some {α : Type} {M : List Char → Option α} {c : Char}
    {t : List Char} {x : α} (h : M (c :: t) = some x) :
    research M (c :: t) = some x := by
  simp [research, h]

lemma takeWhile_append_all {p : Char → Bool} {xs rest : List Char}
    (h1 : ∀ c ∈ xs, p c = true)
    (h2 : ∀ b bs, rest = b :: bs → p b = false) :
    (xs ++ rest).takeWhile p = xs ∧ (xs ++ rest).dropWhile p = rest := by
  induction xs with
  | nil =>
    simp only [List.nil_append]
    cases rest with
    | nil => exact ⟨rfl, rfl⟩
    | cons b bs =>
      rw [List.takeWhile_cons, List.dropWhile_cons, h2 b bs rfl]
      simp
  | cons c cs ih =>
    have hc : p c = true := h1 c (by simp)
    obtain ⟨ih1, ih2⟩ := ih (fun d hd => h1 d (by simp [hd]))
    rw [List.cons_append, List.takeWhile_cons, List.dropWhile_cons, hc]
    simp [ih1, ih2]

lemma munchSeg_append {xs rest : List Char} (h0 : xs ≠ [])
    (h1 : ∀ c ∈ xs, segChar c = true)
    (h2 : ∀ b bs, rest = b :: bs → segChar b = false) :
    munchSeg (xs ++ rest) = some (xs, rest) := by
  obtain ⟨ht, hd⟩ := takeWhile_append_all h1 h2
  rw [munchSeg_eq, ht, hd]
  simp [List.isEmpty_iff, h0]

lemma munchNoSlash_eq (s : List Char) :
    munchNoSlash s =
      if (s.takeWhile noSlashChar).isEmpty then none
      else some (s.takeWhile noSlashChar, s.dropWhile noSlashChar) := by
  unfold munchNoSlash
  dsimp only
  rw [drop_length_takeWhile]

lemma munchNoSlash_append {xs rest : List Char} (h0 : xs ≠ [])
    (h1 : ∀ c ∈ xs, noSlashChar c = true)
    (h2 : ∀ b bs, rest = b :: bs → noSlashChar b = false) :
    munchNoSlash (xs ++ rest) = some (xs, rest) := by
  obtain ⟨ht, hd⟩ := takeWhile_append_all h1 h2
  rw [munchNoSlash_eq, ht, hd]
  simp [List.isEmpty_iff, h0]

lemma munchNoSlash_all {xs : List Char} (h0 : xs ≠ [])
    (h1 : ∀ c ∈ xs, noSlashChar c = true) :
    munchNoSlash xs = some (xs, []) := by
  have := @munchNoSlash_append xs [] h0 h1 (by intro b bs h; simp at h)
  simpa using this

lemma litIC_eq {l s a r : List Char} (h : litIC l s = some (a, r)) :
    s = a ++ r ∧ a.map charLower = l := by
  induction l generalizing s a r with
  | nil =>
    simp only [litIC, Option.some.injEq, Prod.mk.injEq] at h
    obtain ⟨h1, h2⟩ := h
    subst h1
    subst h2
    exact ⟨rfl, rfl⟩
  | cons p ps ih =>
    cases s with
    | nil => simp [litIC] at h
    | cons c cs =>
      by_cases hc : charLower c = p
      · simp only [litIC, hc, if_pos] at h
        rcases e : litIC ps cs with _ | ⟨a', r'⟩ <;> rw [e] at h
        · simp at h
        · simp only [Option.map_some', Option.some.injEq, Prod.mk.injEq] at h
          obtain ⟨h1, h2⟩ := h
          subst h1
          subst h2
          obtain ⟨hs, hm⟩ := ih e
          exact ⟨by simp [hs], by simp [hm, hc]⟩
      · simp [litIC, hc] at h

lemma litCS_eq {l s a r : List Char} (h : litCS l s = some (a, r)) :
    s = l ++ r ∧ a = l := by
  induction l generalizing s a r with
  | nil =>
    simp only [litCS, Option.some.injEq, Prod.mk.injEq] at h
    obtain ⟨h1, h2⟩ := h
    subst h1
    subst h2
    exact ⟨rfl, rfl⟩
  | cons p ps ih =>
    cases s with
    | nil => simp [litCS] at h
    | cons c cs =>
      by_cases hc : c = p
      · simp only [litCS, hc, if_pos] at h
        rcases e : litCS ps cs with _ | ⟨a', r'⟩ <;> rw [e] at h
        · simp at h
        · simp only [Option.map_some', Option.some.injEq, Prod.mk.injEq] at h
          obtain ⟨h1, h2⟩ := h
          subst h1
          subst h2
          obtain ⟨hs, hm⟩ := ih e
          subst hc
          exact ⟨by simp [hs], by simp [hm]⟩
      · simp [litCS, hc] at h

lemma optCharIC_parts (p : Char) (s : List Char) :
    (optCharIC p s).1 ++ (optCharIC p s).2 = s := by
  cases s with
  | nil => rfl
  | cons c cs =>
    by_cases hc : charLower c = p <;> simp [optCharIC, hc]

lemma optLitIC_parts (l : List Char) (s : List Char) :
    (optLitIC l s).1 ++ (optLitIC l s).2 = s := by
  unfold optLitIC
  rcases e : litIC l s with _ | ⟨a, r⟩
  · rfl
  · exact ((litIC_eq e).1).symm

/-- Any successful match of the scheme/host prefix consumes a colon. -/
lemma schemeHostIC_colon {s : List Char} {x : List Char × List Char}
    (h : schemeHostIC s = some x) : ':' ∈ s := by
  rcases e1 : litIC ("http".toList) s with _ | ⟨a1, r1⟩
  · have hn : schemeHostIC s = none := by simp only [schemeHostIC, e1]
    rw [hn] at h
    exact Option.noConfusion h
  · rcases hoc : optCharIC 's' r1 with ⟨a2, r2⟩
    rcases e3 : litIC ("://".toList) r2 with _ | ⟨a3, r3⟩
    · have hn : schemeHostIC s = none := by
        simp only [schemeHostIC, e1, hoc, e3]
      rw [hn] at h
      exact Option.noConfusion h
    · obtain ⟨hs3, hm3⟩ := litIC_eq e3
      have hcol : ':' ∈ a3 := by
        cases a3 with
        | nil => simp at hm3
        | cons c1 cs1 =>
          simp only [List.map_cons] at hm3
          have hc1 : charLower c1 = ':' := by
            have := congrArg (fun l => l.head?) hm3
            simpa using this
          simp [charLower_eq_colon.mp hc1]
      have h1 : ':' ∈ r2 := by
        rw [hs3]
        exact List.mem_append_left _ hcol
      have h2 : ':' ∈ r1 := by
        have hp := optCharIC_parts 's' r1
        rw [hoc] at hp
        rw [← hp]
        exact List.mem_append_right _ h1
      rw [(litIC_eq e1).1]
      exact List.mem_append_right _ h2

lemma profileAtMain_colon {s : List Char} {x : List Char × List Char}
    (h : profileAtMain s = some x) : ':' ∈ s := by
  unfold profileAtMain at h
  rcases e : schemeHostIC s with _ | ⟨a, r⟩ <;> rw [e] at h
  · exact Option.noConfusion h
  · exact schemeHostIC_colon e

lemma postAtMain_colon {s : List Char} {x : List Char × List Char}
    (h : postAtMain s = some x) : ':' ∈ s := by
  unfold postAtMain at h
  rcases e : schemeHostIC s with _ | ⟨a, r⟩ <;> rw [e] at h
  · exact Option.noConfusion h
  · exact schemeHostIC_colon e

/-- Any successful match of the `instagram_bot.py` profile pattern
consumes a slash (the one in its literal `instagram.com/`). -/
lemma profileAtBot_slash {s : List Char} {x : List Char × List Char}
    (h : profileAtBot s = some x) : '/' ∈ s := by
  unfold profileAtBot at h
  rcases e : litCS ("instagram.com/".toList) s with _ | ⟨a, r⟩ <;> rw [e] at h
  · exact Option.noConfusion h
  · obtain ⟨hs, _⟩ := litCS_eq e
    rw [hs]
    exact List.mem_append_left _ (by decide)

lemma research_none_of_needs {α : Type} {M : List Char → Option α} {c0 : Char}
    (hM : ∀ s x, M s = some x → c0 ∈ s) :
    ∀ {s : List Char}, c0 ∉ s → research M s = none := by
  intro s
  induction s with
  | nil =>
    intro h
    rcases e : M [] with _ | v
    · simp [research, e]
    · exact absurd (hM [] v e) (by simp)
  | cons c cs ih =>
    intro h
    rcases e : M (c :: cs) with _ | v
    · rw [research_cons_none e]
      exact ih (fun hmem => h (by simp [hmem]))
    · exact absurd (hM (c :: cs) v e) h

lemma schemeHostIC_https (r : List Char) :
    schemeHostIC ("https://instagram.com/".toList ++ r) =
      some ("https://instagram.com/".toList, r) := rfl

/-- The `main.py` profile pattern fails at the start of a
`https://instagram.com/<marker>/<tail>` text: its single segment stops at
the slash after the marker, and the required end anchor then fails. -/
lemma profileAtMain_marker_none (marker tail : List Char)
    (hm1 : marker ≠ []) (hm2 : ∀ c ∈ marker, segChar c = true)
    (ht1 : tail ≠ []) (ht2 : tail ≠ ['\n'])
    (ht3 : ∀ b bs, tail = b :: bs → b ≠ '?') :
    profileAtMain ("https://instagram.com/".toList ++ (marker ++ '/' :: tail)) =
      none := by
  have hsh := schemeHostIC_https (marker ++ '/' :: tail)
  have hmu : munchSeg (marker ++ '/' :: tail) = some (marker, '/' :: tail) :=
    munchSeg_append hm1 hm2 (by intro b bs hb; cases hb; rfl)
  have hoc : optCharIC '/' ('/' :: tail) = (['/'], tail) := rfl
  cases tail with
  | nil => exact absurd rfl ht1
  | cons b bs =>
    have hqs : optQS (b :: bs) = ([], b :: bs) := by
      simp [optQS, ht3 b bs rfl]
    have hea : endAnchor (b :: bs) = false := by
      unfold endAnchor
      simp only [Bool.or_eq_false_iff, decide_eq_false_iff_not]
      exact ⟨by simp, ht2⟩
    simp only [profileAtMain, hsh, hmu, hoc, hqs, hea]
    simp

/-- The `instagram_bot.py` profile pattern fails at the `instagram.com/`
occurrence of a reel URL. -/
lemma profileAtBot_pos8_none (tail : List Char)
    (h1 : tail ≠ []) (h2 : tail ≠ ['\n']) :
    profileAtBot ("instagram.com/".toList ++ ("reel".toList ++ '/' :: tail)) =
      none := by
  have hl : litCS ("instagram.com/".toList)
      ("instagram.com/".toList ++ ("reel".toList ++ '/' :: tail)) =
      some ("instagram.com/".toList, "reel".toList ++ '/' :: tail) := rfl
  have hmu : munchNoSlash ("reel".toList ++ '/' :: tail) =
      some ("reel".toList, '/' :: tail) :=
    munchNoSlash_append (by decide) (by decide) (by intro b bs hb; cases hb; rfl)
  have hoc : optCharCS '/' ('/' :: tail) = (['/'], tail) := rfl
  have hea : endAnchor tail = false := by
    unfold endAnchor
    simp only [Bool.or_eq_false_iff, decide_eq_false_iff_not]
    exact ⟨h1, h2⟩
  simp only [profileAtBot, hl, hmu, hoc, hea]
  simp

/-- The `main.py` reel pattern applied at the start of
`https://instagram.com/reel/<id><suffix>` captures exactly `<id>`. -/
lemma reelAtMain_capture {id suffix : List Char} (hid0 : id ≠ [])
    (hid : ∀ c ∈ id, segChar c = true)
    (hsuf : ∀ b bs, suffix = b :: bs → segChar b = false) :
    (reelAtMain ("https://instagram.com/reel/".toList ++ (id ++ suffix))).map
      Prod.snd = some id := by
  have hsh : schemeHostIC ("https://instagram.com/reel/".toList ++ (id ++ suffix)) =
      some ("https://instagram.com/".toList, "reel/".toList ++ (id ++ suffix)) :=
    schemeHostIC_https ("reel/".toList ++ (id ++ suffix))
  have hlit : litIC ("reel/".toList) ("reel/".toList ++ (id ++ suffix)) =
      some ("reel/".toList, id ++ suffix) := rfl
  have hmu : munchSeg (id ++ suffix) = some (id, suffix) :=
    munchSeg_append hid0 hid hsuf
  simp only [reelAtMain, hsh, hlit, hmu]
  simp

/-- The `main.py` post pattern applied at the start of
`https://instagram.com/p/<id><suffix>` captures exactly `<id>`. -/
lemma postAtMain_capture {id suffix : List Char} (hid0 : id ≠ [])
    (hid : ∀ c ∈ id, segChar c = true)
    (hsuf : ∀ b bs, suffix = b :: bs → segChar b = false) :
    (postAtMain ("https://instagram.com/p/".toList ++ (id ++ suffix))).map
      Prod.snd = some id := by
  have hsh : schemeHostIC ("https://instagram.com/p/".toList ++ (id ++ suffix)) =
      some ("https://instagram.com/".toList, "p/".toList ++ (id ++ suffix)) :=
    schemeHostIC_https ("p/".toList ++ (id ++ suffix))
  have hlit : litIC ("p/".toList) ("p/".toList ++ (id ++ suffix)) =
      some ("p/".toList, id ++ suffix) := rfl
  have hmu : munchSeg (id ++ suffix) = some (id, suffix) :=
    munchSeg_append hid0 hid hsuf
  simp only [postAtMain, hsh, hlit, hmu]
  simp

/-- The `main.py` profile pattern applied at the start of
`https://instagram.com/<id>?<q>` captures exactly `<id>` (the query
string is tolerated by the pattern's `(?:\?.*)?$` tail when `<q>` has no
newline). -/
lemma profileAtMain_query_capture {id q : List Char} (hid0 : id ≠ [])
    (hid : ∀ c ∈ id, segChar c = true) (hq : '\n' ∉ q) :
    (profileAtMain ("https://instagram.com/".toList ++ (id ++ '?' :: q))).map
      Prod.snd = some id := by
  have hsh := schemeHostIC_https (id ++ '?' :: q)
  have hmu : munchSeg (id ++ '?' :: q) = some (id, '?' :: q) :=
    munchSeg_append hid0 hid (by intro b bs hb; cases hb; rfl)
  have hoc : optCharIC '/' ('?' :: q) = ([], '?' :: q) := rfl
  have htw : q.takeWhile dotChar = q := by
    have := @takeWhile_append_all dotChar q []
      (fun c hc => by
        simp only [dotChar, Bool.not_eq_eq_eq_not, Bool.not_true,
          decide_eq_false_iff_not]
        intro hcc
        exact hq (hcc ▸ hc))
      (by intro b bs hb; cases hb)
    simpa using this.1
  have hqs : optQS ('?' :: q) =
      ('?' :: q, q.drop (q.takeWhile dotChar).length) := by
    simp [optQS, htw]
  have hdrop : q.drop (q.takeWhile dotChar).length = [] := by
    rw [htw, List.drop_length]
  have hea : endAnchor (q.drop (q.takeWhile dotChar).length) = true := by
    rw [hdrop]
    rfl
  simp only [profileAtMain, hsh, hmu, hoc, hqs, hea]
  simp

/-- The `instagram_bot.py` reel pattern applied at the `instagram.com/reel/`
occurrence captures everything up to the end (no slash in the tail). -/
lemma reelAtBot_capture {tail : List Char} (h0 : tail ≠ [])
    (h1 : ∀ c ∈ tail, noSlashChar c = true) :
    reelAtBot ("instagram.com/reel/".toList ++ tail) =
      some ("instagram.com/reel/".toList ++ tail, tail) := by
  have hl : litCS ("instagram.com/reel/".toList)
      ("instagram.com/reel/".toList ++ tail) =
      some ("instagram.com/reel/".toList, tail) := rfl
  have hmu : munchNoSlash tail = some (tail, []) := munchNoSlash_all h0 h1
  simp only [reelAtBot, hl, hmu]

lemma research_profileMain_reel_none {tail : List Char}
    (ht1 : tail ≠ []) (ht2 : tail ≠ ['\n'])
    (ht3 : ∀ b bs, tail = b :: bs → b ≠ '?') (htc : ':' ∉ tail) :
    research profileAtMain ("https://instagram.com/reel/".toList ++ tail) =
      none := by
  have s0 : profileAtMain ("https://instagram.com/reel/".toList ++ tail) = none :=
    profileAtMain_marker_none ("reel".toList) tail (by decide) (by decide)
      ht1 ht2 ht3
  have step : research profileAtMain ("https://instagram.com/reel/".toList ++ tail) =
      research profileAtMain ("ttps://instagram.com/reel/".toList ++ tail) :=
    research_cons_none s0
  rw [step]
  have jump : research profileAtMain ("ttps://instagram.com/reel/".toList ++ tail) =
      research profileAtMain ("//instagram.com/reel/".toList ++ tail) := rfl
  rw [jump]
  apply research_none_of_needs (fun s x h => profileAtMain_colon h)
  intro hmem
  rcases List.mem_append.mp hmem with hm | hm
  · revert hm; decide
  · exact htc hm

lemma research_profileMain_p_none {tail : List Char}
    (ht1 : tail ≠ []) (ht2 : tail ≠ ['\n'])
    (ht3 : ∀ b bs, tail = b :: bs → b ≠ '?') (htc : ':' ∉ tail) :
    research profileAtMain ("https://instagram.com/p/".toList ++ tail) = none := by
  have s0 : profileAtMain ("https://instagram.com/p/".toList ++ tail) = none :=
    profileAtMain_marker_none ("p".toList) tail (by decide) (by decide)
      ht1 ht2 ht3
  have step : research profileAtMain ("https://instagram.com/p/".toList ++ tail) =
      research profileAtMain ("ttps://instagram.com/p/".toList ++ tail) :=
    research_cons_none s0
  rw [step]
  have jump : research profileAtMain ("ttps://instagram.com/p/".toList ++ tail) =
      research profileAtMain ("//instagram.com/p/".toList ++ tail) := rfl
  rw [jump]
  apply research_none_of_needs (fun s x h => profileAtMain_colon h)
  intro hmem
  rcases List.mem_append.mp hmem with hm | hm
  · revert hm; decide
  · exact htc hm

lemma research_postMain_reel_none {tail : List Char} (htc : ':' ∉ tail) :
    research postAtMain ("https://instagram.com/reel/".toList ++ tail) = none := by
  have jump : research postAtMain ("https://instagram.com/reel/".toList ++ tail) =
      research postAtMain ("//instagram.com/reel/".toList ++ tail) := rfl
  rw [jump]
  apply research_none_of_needs (fun s x h => postAtMain_colon h)
  intro hmem
  rcases List.mem_append.mp hmem with hm | hm
  · revert hm; decide
  · exact htc hm

lemma research_reelMain_some {id suffix : List Char} (hid0 : id ≠ [])
    (hid : ∀ c ∈ id, segChar c = true)
    (hsuf : ∀ b bs, suffix = b :: bs → segChar b = false) :
    (research reelAtMain
        ("https://instagram.com/reel/".toList ++ (id ++ suffix))).map
      Prod.snd = some id := by
  have h0 := reelAtMain_capture hid0 hid hsuf
  rcases e : reelAtMain ("https://instagram.com/reel/".toList ++ (id ++ suffix))
      with _ | ⟨g0, g1⟩ <;> rw [e] at h0
  · exact absurd h0 (by simp)
  · have hr : research reelAtMain
        ("https://instagram.com/reel/".toList ++ (id ++ suffix)) =
        some (g0, g1) := research_cons_some e
    rw [hr]
    exact h0

lemma research_postMain_some {id suffix : List Char} (hid0 : id ≠ [])
    (hid : ∀ c ∈ id, segChar c = true)
    (hsuf : ∀ b bs, suffix = b :: bs → segChar b = false) :
    (research postAtMain
        ("https://instagram.com/p/".toList ++ (id ++ suffix))).map
      Prod.snd = some id := by
  have h0 := postAtMain_capture hid0 hid hsuf
  rcases e : postAtMain ("https://instagram.com/p/".toList ++ (id ++ suffix))
      with _ | ⟨g0, g1⟩ <;> rw [e] at h0
  · exact absurd h0 (by simp)
  · have hr : research postAtMain
        ("https://instagram.com/p/".toList ++ (id ++ suffix)) =
        some (g0, g1) := research_cons_some e
    rw [hr]
    exact h0

lemma research_profileMain_query_some {id q : List Char} (hid0 : id ≠ [])
    (hid : ∀ c ∈ id, segChar c = true) (hq : '\n' ∉ q) :
    (research profileAtMain
        ("https://instagram.com/".toList ++ (id ++ '?' :: q))).map
      Prod.snd = some id := by
  have h0 := profileAtMain_query_capture hid0 hid hq
  rcases e : profileAtMain ("https://instagram.com/".toList ++ (id ++ '?' :: q))
      with _ | ⟨g0, g1⟩ <;> rw [e] at h0
  · exact absurd h0 (by simp)
  · have hr : research profileAtMain
        ("https://instagram.com/".toList ++ (id ++ '?' :: q)) =
        some (g0, g1) := research_cons_some e
    rw [hr]
    exact h0

lemma research_profileBot_none {tail : List Char}
    (ht1 : tail ≠ []) (ht2 : tail ≠ ['\n']) (hts : '/' ∉ tail) :
    research profileAtBot ("https://instagram.com/reel/".toList ++ tail) =
      none := by
  have jump1 : research profileAtBot ("https://instagram.com/reel/".toList ++ tail) =
      research profileAtBot ("instagram.com/reel/".toList ++ tail) := rfl
  rw [jump1]
  have s8 : profileAtBot ("instagram.com/reel/".toList ++ tail) = none :=
    profileAtBot_pos8_none tail ht1 ht2
  have step : research profileAtBot ("instagram.com/reel/".toList ++ tail) =
      research profileAtBot ("nstagram.com/reel/".toList ++ tail) :=
    research_cons_none s8
  rw [step]
  have jump2 : research profileAtBot ("nstagram.com/reel/".toList ++ tail) =
      research profileAtBot tail := rfl
  rw [jump2]
  exact research_none_of_needs (fun s x h => profileAtBot_slash h) hts

lemma research_reelBot_some {tail : List Char} (h0 : tail ≠ [])
    (h1 : ∀ c ∈ tail, noSlashChar c = true) :
    research reelAtBot ("https://instagram.com/reel/".toList ++ tail) =
      some ("instagram.com/reel/".toList ++ tail, tail) := by
  have jump : research reelAtBot ("https://instagram.com/reel/".toList ++ tail) =
      research reelAtBot ("instagram.com/reel/".toList ++ tail) := rfl
  rw [jump]
  have hr : research reelAtBot ("instagram.com/reel/".toList ++ tail) =
      some ("instagram.com/reel/".toList ++ tail, tail) :=
    research_cons_some (reelAtBot_capture h0 h1)
  exact hr

lemma plainSegId_facts {id : List Char} (h : plainSegId id) (suffix : List Char) :
    id ++ suffix ≠ [] ∧ id ++ suffix ≠ ['\n'] ∧
      (∀ b bs, id ++ suffix = b :: bs → b ≠ '?') := by
  obtain ⟨h0, hall⟩ := h
  cases id with
  | nil => exact absurd rfl h0
  | cons c cs =>
    have hc := hall c (by simp)
    refine ⟨by simp, ?_, ?_⟩
    · intro heq
      simp only [List.cons_append, List.cons.injEq] at heq
      exact hc.2.2 heq.1
    · intro b bs heq hbq
      simp only [List.cons_append, List.cons.injEq] at heq
      have hcq : c = '?' := heq.1.symm ▸ hbq
      have := hc.1
      rw [hcq] at this
      simp [segChar] at this

lemma plainSegId_colon {id : List Char} (h : plainSegId id) {suffix : List Char}
    (hs : ':' ∉ suffix) : ':' ∉ id ++ suffix := by
  intro hm
  rcases List.mem_append.mp hm with hm | hm
  · exact (h.2 ':' hm).2.1 rfl
  · exact hs hm

lemma mainExtract_reel_general {id suffix : List Char} (h : plainSegId id)
    (hsufseg : ∀ b bs, suffix = b :: bs → segChar b = false)
    (hsufc : ':' ∉ suffix) :
    ((mainExtractInstagramInfo
        ("https://instagram.com/reel/".toList ++ (id ++ suffix))).map
      Prod.snd = some UrlType.reel)
    ∧ ((research reelAtMain
        ("https://instagram.com/reel/".toList ++ (id ++ suffix))).map
      Prod.snd = some id) := by
  obtain ⟨ht1, ht2, ht3⟩ := plainSegId_facts h suffix
  have hp := research_profileMain_reel_none ht1 ht2 ht3 (plainSegId_colon h hsufc)
  have hq2 := @research_postMain_reel_none (id ++ suffix)
    (plainSegId_colon h hsufc)
  have hr := research_reelMain_some h.1 (fun c hc => (h.2 c hc).1) hsufseg
  rcases er : research reelAtMain
      ("https://instagram.com/reel/".toList ++ (id ++ suffix))
      with _ | ⟨g0, g1⟩ <;> rw [er] at hr
  · exact absurd hr (by simp)
  · constructor
    · simp only [mainExtractInstagramInfo, hp, hq2, er, Option.map_some']
    · exact hr

lemma mainExtract_post_general {id suffix : List Char} (h : plainSegId id)
    (hsufseg : ∀ b bs, suffix = b :: bs → segChar b = false)
    (hsufc : ':' ∉ suffix) :
    ((mainExtractInstagramInfo
        ("https://instagram.com/p/".toList ++ (id ++ suffix))).map
      Prod.snd = some UrlType.post)
    ∧ ((research postAtMain
        ("https://instagram.com/p/".toList ++ (id ++ suffix))).map
      Prod.snd = some id) := by
  obtain ⟨ht1, ht2, ht3⟩ := plainSegId_facts h suffix
  have hp := research_profileMain_p_none ht1 ht2 ht3 (plainSegId_colon h hsufc)
  have hr := research_postMain_some h.1 (fun c hc => (h.2 c hc).1) hsufseg
  rcases er : research postAtMain
      ("https://instagram.com/p/".toList ++ (id ++ suffix))
      with _ | ⟨g0, g1⟩ <;> rw [er] at hr
  · exact absurd hr (by simp)
  · constructor
    · simp only [mainExtractInstagramInfo, hp, er, Option.map_some']
    · exact hr

lemma botExtract_reel_general {tail : List Char} (ht1 : tail ≠ [])
    (ht2 : '/' ∉ tail) (ht3 : tail ≠ ['\n']) :
    botExtractInstagramInfo ("https://instagram.com/reel/".toList ++ tail) =
      ⟨BotType.reel, some tail,
        "https://instagram.com/reel/".toList ++ tail⟩ := by
  have hpn := research_profileBot_none ht1 ht3 ht2
  have hrs := research_reelBot_some ht1 (fun c hc => by
    simp only [noSlashChar, Bool.not_eq_eq_eq_not, Bool.not_true,
      decide_eq_false_iff_not]
    intro hcc
    exact ht2 (hcc ▸ hc))
  simp only [botExtractInstagramInfo, hpn, hrs]

/-- C5 counterexample: The claim fails on the code:
`instagram_bot.py`'s captures run to the next slash, so appending a query
string changes the extracted identifier (`XYZ123?igshid=1` instead of
`XYZ123`); and in `main.py`, appending a fragment to a profile URL does
not preserve the identifier but makes classification fail entirely. -/
theorem identifier_not_stripped_counterexample :
    ((botExtractInstagramInfo
        ("https://instagram.com/reel/XYZ123?igshid=1".toList)).id =
      some ("XYZ123?igshid=1".toList)) ∧
    ((botExtractInstagramInfo ("https://instagram.com/reel/XYZ123".toList)).id =
      some ("XYZ123".toList)) ∧
    (("XYZ123?igshid=1".toList : List Char) ≠ "XYZ123".toList) ∧
    (mainExtractInstagramInfo ("https://instagram.com/alice".toList) =
      some ("https://instagram.com/alice".toList, UrlType.profile)) ∧
    (mainExtractInstagramInfo ("https://instagram.com/alice#x".toList) = none) := by
  refine ⟨by decide, by decide, by decide, by decide, by decide⟩

/-- C5 amended: `main.py`'s patterns do capture the first path
segment after the type marker stripped of query string and fragment: for
every plain identifier, a reel or post URL with nothing, `?…` or `#…`
appended keeps its kind and its captured identifier, and a profile URL
with `?…` appended keeps kind profile and identifier (but a fragment on a
profile URL yields no match at all, as the counterexample records).
`instagram_bot.py` does not strip: its capture runs to the next slash or
the end, so the appended query string or fragment becomes part of the
extracted identifier. -/
theorem identifier_extraction_amended :
    (∀ id q f : List Char, plainSegId id → ':' ∉ q → ':' ∉ f →
      ((mainExtractInstagramInfo
          ("https://instagram.com/reel/".toList ++ (id ++ []))).map
        Prod.snd = some UrlType.reel) ∧
      ((research reelAtMain
          ("https://instagram.com/reel/".toList ++ (id ++ []))).map
        Prod.snd = some id) ∧
      ((mainExtractInstagramInfo
          ("https://instagram.com/reel/".toList ++ (id ++ '?' :: q))).map
        Prod.snd = some UrlType.reel) ∧
      ((research reelAtMain
          ("https://instagram.com/reel/".toList ++ (id ++ '?' :: q))).map
        Prod.snd = some id) ∧
      ((mainExtractInstagramInfo
          ("https://instagram.com/reel/".toList ++ (id ++ '#' :: f))).map
        Prod.snd = some UrlType.reel) ∧
      ((research reelAtMain
          ("https://instagram.com/reel/".toList ++ (id ++ '#' :: f))).map
        Prod.snd = some id))
  ∧ (∀ id q f : List Char, plainSegId id → ':' ∉ q → ':' ∉ f →
      ((mainExtractInstagramInfo
          ("https://instagram.com/p/".toList ++ (id ++ '?' :: q))).map
        Prod.snd = some UrlType.post) ∧
      ((research postAtMain
          ("https://instagram.com/p/".toList ++ (id ++ '?' :: q))).map
        Prod.snd = some id) ∧
      ((mainExtractInstagramInfo
          ("https://instagram.com/p/".toList ++ (id ++ '#' :: f))).map
        Prod.snd = some UrlType.post) ∧
      ((research postAtMain
          ("https://instagram.com/p/".toList ++ (id ++ '#' :: f))).map
        Prod.snd = some id))
  ∧ (∀ id q : List Char, plainSegId id → '\n' ∉ q →
      ((mainExtractInstagramInfo
          ("https://instagram.com/".toList ++ (id ++ '?' :: q))).map
        Prod.snd = some UrlType.profile) ∧
      ((research profileAtMain
          ("https://instagram.com/".toList ++ (id ++ '?' :: q))).map
        Prod.snd = some id))
  ∧ (∀ tail : List Char, tail ≠ [] → '/' ∉ tail → tail ≠ ['\n'] →
      botExtractInstagramInfo ("https://instagram.com/reel/".toList ++ tail) =
        ⟨BotType.reel, some tail,
          "https://instagram.com/reel/".toList ++ tail⟩)
  ∧ (∀ id q : List Char, id ++ '?' :: q ≠ id) := by
  refine ⟨?_, ?_, ?_, ?_, ?_⟩
  · intro id q f hid hq hf
    obtain ⟨k1, c1⟩ := @mainExtract_reel_general id [] hid
      (by intro b bs hb; simp at hb) (by simp)
    obtain ⟨k2, c2⟩ := @mainExtract_reel_general id ('?' :: q) hid
      (by intro b bs hb; injection hb with h1 h2; rw [← h1]; rfl)
      (by intro hm; rcases List.mem_cons.mp hm with hm | hm
          · cases hm
          · exact hq hm)
    obtain ⟨k3, c3⟩ := @mainExtract_reel_general id ('#' :: f) hid
      (by intro b bs hb; injection hb with h1 h2; rw [← h1]; rfl)
      (by intro hm; rcases List.mem_cons.mp hm with hm | hm
          · cases hm
          · exact hf hm)
    exact ⟨k1, c1, k2, c2, k3, c3⟩
  · intro id q f hid hq hf
    obtain ⟨k2, c2⟩ := @mainExtract_post_general id ('?' :: q) hid
      (by intro b bs hb; injection hb with h1 h2; rw [← h1]; rfl)
      (by intro hm; rcases List.mem_cons.mp hm with hm | hm
          · cases hm
          · exact hq hm)
    obtain ⟨k3, c3⟩ := @mainExtract_post_general id ('#' :: f) hid
      (by intro b bs hb; injection hb with h1 h2; rw [← h1]; rfl)
      (by intro hm; rcases List.mem_cons.mp hm with hm | hm
          · cases hm
          · exact hf hm)
    exact ⟨k2, c2, k3, c3⟩
  · intro id q hid hq
    have hr := research_profileMain_query_some hid.1
      (fun c hc => (hid.2 c hc).1) hq
    rcases er : research profileAtMain
        ("https://instagram.com/".toList ++ (id ++ '?' :: q))
        with _ | ⟨g0, g1⟩ <;> rw [er] at hr
    · exact absurd hr (by simp)
    · exact ⟨by simp only [mainExtractInstagramInfo, er, Option.map_some'], hr⟩
  · intro tail h1 h2 h3
    exact botExtract_reel_general h1 h2 h3
  · intro id q heq
    have := congrArg List.length heq
    simp at this

/-- Witness for `identifier_extraction_amended`, at the identifier
`XYZ123` with query `igshid=1` and fragment `frag`. -/
theorem identifier_extraction_amended_witness :
    ((mainExtractInstagramInfo
        ("https://instagram.com/reel/".toList ++
          ("XYZ123".toList ++ '?' :: "igshid=1".toList))).map
      Prod.snd = some UrlType.reel) ∧
    ((research reelAtMain
        ("https://instagram.com/reel/".toList ++
          ("XYZ123".toList ++ '?' :: "igshid=1".toList))).map
      Prod.snd = some ("XYZ123".toList)) ∧
    (botExtractInstagramInfo
        ("https://instagram.com/reel/".toList ++
          ("XYZ123".toList ++ '?' :: "igshid=1".toList)) =
      ⟨BotType.reel, some ("XYZ123".toList ++ '?' :: "igshid=1".toList),
        "https://instagram.com/reel/".toList ++
          ("XYZ123".toList ++ '?' :: "igshid=1".toList)⟩) := by
  have h1 := (identifier_extraction_amended.1 ("XYZ123".toList)
    ("igshid=1".toList) ("frag".toList) ⟨by decide, by decide⟩ (by decide)
    (by decide))
  have h4 := identifier_extraction_amended.2.2.2.1
    ("XYZ123".toList ++ '?' :: "igshid=1".toList) (by decide) (by decide)
    (by decide)
  exact ⟨h1.2.2.1, h1.2.2.2.1, h4⟩
